import Mathlib

/-!
Verification development for the atm-refraction repository.

The definitions below are a shallow embedding of the Rust sources:
machine floats (`f64`) are modelled as elements of a linear ordered field
(instantiated at `ℝ` for the parts of the code that use transcendental
functions, and at `ℚ` for concrete executable witnesses of the structural
parts), `Vec` as `List`, fallible construction as `Except`, and in-place
mutation as explicit state passing.  Slice indexing `v[i]` is modelled by
`List.getD` (the out-of-range default is only ever reachable where the Rust
code would panic, which is noted at each use site).
-/

set_option maxHeartbeats 1600000

/-! ## Cubic polynomials and fitted splines (external crate `cubic_splines`)

`CubicPoly` and `Spline` come from the external `cubic_splines` crate, which
the specification treats as a black box "producing per-segment cubic
polynomials plus endpoint derivatives".  `CubicPoly` is modelled as a cubic
polynomial by its four coefficients; a fitted `Spline` is modelled by the
interface the repository consumes: its domain ends, endpoint derivatives,
evaluation function and list of `(start, end, polynomial)` pieces
(`Spline::new`, the fitting itself, stays external, so `FunctionDef::Spline`
below carries the fitted result instead of the control points). -/

structure CubicPoly (α : Type) where
  a : α
  b : α
  c : α
  d : α
deriving DecidableEq

/-- Evaluation of a cubic polynomial (external crate primitive). -/
def CubicPoly.eval {α : Type} [LinearOrderedField α] (p : CubicPoly α) (x : α) : α :=
  p.a * x ^ 3 + p.b * x ^ 2 + p.c * x + p.d

structure SplineData (α : Type) where
  min_x : α
  max_x : α
  derivative_start : α
  derivative_end : α
  value : α → α
  polynomials : List (α × α × CubicPoly α)

/-! ## Vertical profiles (src/air/atmosphere/vertical_profile.rs) -/

inductive VerticalFunction (α : Type) where
  /-- T(h) = a*h + b -/
  | Linear (a b : α)
  | Cubic (poly : CubicPoly α)
deriving DecidableEq

/-- Modelled from the spec: `VerticalFunction` evaluation is not under `src/`
(only its callers are); per the spec the final form is "`Linear{a,b}` with
`value = a·h + b`, or `Cubic(poly)`". -/
def VerticalFunction.eval {α : Type} [LinearOrderedField α] :
    VerticalFunction α → α → α
  | .Linear a b, h => a * h + b
  | .Cubic poly, h => poly.eval h

structure VerticalProfile (α : Type) where
  altitude_interval_ends : List α
  interval_functions : List (VerticalFunction α)
deriving DecidableEq

inductive FunctionDef (α : Type) where
  | Linear (gradient : α)
  | Spline (spline : SplineData α)

/-- True exactly on the `Linear` variant of `FunctionDef`. -/
def FunctionDef.is_linear {α : Type} : FunctionDef α → Bool
  | .Linear _ => true
  | .Spline _ => false

inductive IntermediateFunctionDef (α : Type) where
  | Linear (gradient : α) (fixed_point : Option (α × α))
  | Cubic (poly : CubicPoly α)
deriving DecidableEq

/-- Default used to model slice indexing; only reachable where the Rust code
would index out of bounds (a panic). -/
def dfltIFD {α : Type} [LinearOrderedField α] : IntermediateFunctionDef α :=
  .Linear 0 none

/-- Default `VerticalFunction` used to model slice indexing out of bounds. -/
def dfltVF {α : Type} [LinearOrderedField α] : VerticalFunction α :=
  .Linear 0 0

/-- Lowering of one segment definition to primitive intervals
(`FunctionDef::into_intermediate`): helper for the per-polynomial-piece loop,
clipping spline pieces to the declared altitude range. -/
def clip_polys {α : Type} [LinearOrderedField α]
    (start_alt end_alt : Option α) :
    List (α × α × CubicPoly α) → List α × List (IntermediateFunctionDef α)
  | [] => ([], [])
  | (start, end_, poly) :: rest =>
    let tail := clip_polys start_alt end_alt rest
    if start_alt.any (fun sa => decide (end_ < sa)) then tail
    else
      let start' := match start_alt with
        | some sa => if start < sa then sa else start
        | none => start
      if end_alt.any (fun ea => decide (ea < start')) then tail
      else (start' :: tail.1, .Cubic poly :: tail.2)

/-- `FunctionDef::into_intermediate` (vertical_profile.rs, lines 31-87). -/
def FunctionDef.into_intermediate {α : Type} [LinearOrderedField α]
    (fd : FunctionDef α) (start_alt end_alt : Option α) :
    List α × List (IntermediateFunctionDef α) :=
  match fd with
  | .Linear gradient => (start_alt.toList, [.Linear gradient none])
  | .Spline s =>
    let lead : List α × List (IntermediateFunctionDef α) :=
      if start_alt.all (fun sa => decide (sa < s.min_x)) then
        (start_alt.toList,
         [.Linear s.derivative_start (some (s.min_x, s.value s.min_x))])
      else ([], [])
    let mids := clip_polys start_alt end_alt s.polynomials
    let trail : List α × List (IntermediateFunctionDef α) :=
      if end_alt.all (fun ea => decide (s.max_x < ea)) then
        ([s.max_x],
         [.Linear s.derivative_end (some (s.max_x, s.value s.max_x))])
      else ([], [])
    (lead.1 ++ mids.1 ++ trail.1, lead.2 ++ mids.2 ++ trail.2)

def IntermediateFunctionDef.get {α : Type} [LinearOrderedField α] :
    IntermediateFunctionDef α → α → Option α
  | .Linear gradient (some (x0, y0)), x => some (y0 + (x - x0) * gradient)
  | .Linear _ none, _ => none
  | .Cubic poly, x => some (poly.eval x)

def IntermediateFunctionDef.has_fixed_point {α : Type} :
    IntermediateFunctionDef α → Bool
  | .Linear _ fixed_point => fixed_point.isSome
  | .Cubic _ => true

/-- `IntermediateFunctionDef::into_function`; the Rust code unwraps the fixed
point (`expect`), which is unreachable after a successful
`fill_fixed_points`, so the missing case is modelled by a default. -/
def IntermediateFunctionDef.into_function {α : Type} [LinearOrderedField α] :
    IntermediateFunctionDef α → VerticalFunction α
  | .Linear gradient fixed_point =>
    let xy := fixed_point.getD (0, 0)
    .Linear gradient (xy.2 - gradient * xy.1)
  | .Cubic poly => .Cubic poly

structure VerticalProfileBuilder (α : Type) where
  interval_ends : List α
  function_defs : List (FunctionDef α)
  fixed_value : Option (α × α)

def VerticalProfileBuilder.new {α : Type} (first_fun : FunctionDef α) :
    VerticalProfileBuilder α :=
  ⟨[], [first_fun], none⟩

def VerticalProfileBuilder.with_next_function {α : Type}
    (b : VerticalProfileBuilder α) (altitude : α) (function : FunctionDef α) :
    VerticalProfileBuilder α :=
  { b with
    interval_ends := b.interval_ends ++ [altitude]
    function_defs := b.function_defs ++ [function] }

def VerticalProfileBuilder.with_fixed_value {α : Type}
    (b : VerticalProfileBuilder α) (altitude val : α) :
    VerticalProfileBuilder α :=
  { b with fixed_value := some (altitude, val) }

inductive VerticalProfileError (α : Type) where
  | NoFixedPoint
  | FixedPointConflict (index1 index2 : ℕ) (point1 point2 : α × α)
      (gradient : Option α)
deriving DecidableEq

/-- The `EPSILON` constant of `fill_fixed_point` (= 1e-4). -/
def tolerance (α : Type) [LinearOrderedField α] : α := 1 / 10000

/-- The membership test of `fill_fixed_point` deciding whether the fixed
value's altitude `x` lies in interval `index`:
`index.checked_sub(1).map_or(true, |ib| interval_ends[ib] <= x)
  && (index >= interval_ends.len() || interval_ends[index] >= x)`. -/
def fv_in_interval {α : Type} [LinearOrderedField α]
    (interval_ends : List α) (index : ℕ) (x : α) : Bool :=
  (decide (index = 0) || decide (interval_ends.getD (index - 1) 0 ≤ x)) &&
  (decide (interval_ends.length ≤ index) ||
    decide (x ≤ interval_ends.getD index 0))

/-- The assignment step of `fill_fixed_point` (lines 239-249): if the global
fixed value falls inside interval `index` and that interval is linear, set it
as the interval's fixed point. -/
def apply_fixed_value {α : Type} [LinearOrderedField α]
    (interval_ends : List α) (fv : Option (α × α)) (index : ℕ)
    (defs : List (IntermediateFunctionDef α)) :
    List (IntermediateFunctionDef α) :=
  match fv, defs.getD index dfltIFD with
  | some (x, _), .Linear gradient _ =>
    if fv_in_interval interval_ends index x then
      defs.set index (.Linear gradient fv)
    else defs
  | _, _ => defs

/-- The tail of `fill_fixed_point` after the recursion block (lines 260-358):
consistency checks against both neighbours and, for an un-anchored linear
interval, propagation of a neighbour's boundary value. -/
def resolve_interval {α : Type} [LinearOrderedField α]
    (interval_ends : List α) (fv : Option (α × α)) (index : ℕ)
    (defs : List (IntermediateFunctionDef α)) :
    Except (VerticalProfileError α) (List (IntermediateFunctionDef α)) :=
  let len := defs.length
  let point_below : Option (α × α) :=
    if index = 0 then none
    else
      ((defs.getD (index - 1) dfltIFD).get
          (interval_ends.getD (index - 1) 0)).map
        (fun y => (interval_ends.getD (index - 1) 0, y))
  let point_above : Option (α × α) :=
    if index + 1 < len then
      ((defs.getD (index + 1) dfltIFD).get (interval_ends.getD index 0)).map
        (fun y => (interval_ends.getD index 0, y))
    else none
  match defs.getD index dfltIFD with
  | .Linear gradient fixed_point =>
    let check1 : Option (VerticalProfileError α) :=
      match point_below, fixed_point with
      | some (x1, y1), some (x2, y2) =>
        if tolerance α < |(y2 - y1) - gradient * (x2 - x1)| then
          some (.FixedPointConflict (index - 1) index (x1, y1) (x2, y2)
            (some gradient))
        else none
      | _, _ => none
    match check1 with
    | some e => .error e
    | none =>
      let check2 : Option (VerticalProfileError α) :=
        match fixed_point, point_above with
        | some (x1, y1), some (x2, y2) =>
          if tolerance α < |(y2 - y1) - gradient * (x2 - x1)| then
            some (.FixedPointConflict index (index + 1) (x1, y1) (x2, y2)
              (some gradient))
          else none
        | _, _ => none
      match check2 with
      | some e => .error e
      | none =>
        match fixed_point with
        | none =>
          match point_below with
          | some p => .ok (defs.set index (.Linear gradient (some p)))
          | none =>
            match point_above with
            | some p => .ok (defs.set index (.Linear gradient (some p)))
            | none => .error .NoFixedPoint
        | some _ => .ok defs
  | .Cubic poly =>
    let check0 : Option (VerticalProfileError α) :=
      match fv with
      | some (x, y) =>
        if fv_in_interval interval_ends index x &&
            decide (tolerance α < |y - poly.eval x|) then
          some (.FixedPointConflict index index (x, y) (x, poly.eval x) none)
        else none
      | none => none
    match check0 with
    | some e => .error e
    | none =>
      let check1 : Option (VerticalProfileError α) :=
        match point_below with
        | some (x, y) =>
          if tolerance α < |y - poly.eval x| then
            some (.FixedPointConflict (index - 1) index (x, y)
              (x, poly.eval x) none)
          else none
        | none => none
      match check1 with
      | some e => .error e
      | none =>
        let check2 : Option (VerticalProfileError α) :=
          match point_above with
          | some (x, y) =>
            if tolerance α < |y - poly.eval x| then
              some (.FixedPointConflict index (index + 1) (x, poly.eval x)
                (x, y) none)
            else none
          | none => none
        match check2 with
        | some e => .error e
        | none => .ok defs

/-- `VerticalProfileBuilder::fill_fixed_point` (lines 223-359).  The Rust
function recurses on `index + 1` while `index + 1 < len`; the `fuel`
argument bounds that recursion (the caller passes `len - index`, which always
suffices, so the fuel-exhausted case is unreachable). -/
def fill_fixed_point_aux {α : Type} [LinearOrderedField α]
    (interval_ends : List α) (fv : Option (α × α)) :
    ℕ → List (IntermediateFunctionDef α) → ℕ →
      Except (VerticalProfileError α) (List (IntermediateFunctionDef α))
  | 0, _, _ => .error .NoFixedPoint
  | fuel + 1, defs, index =>
    let len := defs.length
    let has_below :=
      decide (index ≠ 0) && (defs.getD (index - 1) dfltIFD).has_fixed_point
    let has_above :=
      decide (index + 1 < len) &&
        (defs.getD (index + 1) dfltIFD).has_fixed_point
    let defs1 := apply_fixed_value interval_ends fv index defs
    let has := (defs1.getD index dfltIFD).has_fixed_point
    if !has_below && !has_above && !has then
      if index + 1 < len then
        match fill_fixed_point_aux interval_ends fv fuel defs1 (index + 1) with
        | .error e => .error e
        | .ok defs2 => resolve_interval interval_ends fv index defs2
      else .error .NoFixedPoint
    else resolve_interval interval_ends fv index defs1

def fill_fixed_point {α : Type} [LinearOrderedField α]
    (interval_ends : List α) (defs : List (IntermediateFunctionDef α))
    (index : ℕ) (fv : Option (α × α)) :
    Except (VerticalProfileError α) (List (IntermediateFunctionDef α)) :=
  fill_fixed_point_aux interval_ends fv (defs.length - index) defs index

/-- The `for index in 0..function_defs.len()` loop of `fill_fixed_points`,
threading the mutated interval list through successive indices. -/
def ffp_go {α : Type} [LinearOrderedField α]
    (interval_ends : List α) (fv : Option (α × α)) :
    List ℕ → List (IntermediateFunctionDef α) →
      Except (VerticalProfileError α) (List (IntermediateFunctionDef α))
  | [], defs => .ok defs
  | i :: rest, defs =>
    match fill_fixed_point interval_ends defs i fv with
    | .error e => .error e
    | .ok defs' => ffp_go interval_ends fv rest defs'

def fill_fixed_points {α : Type} [LinearOrderedField α]
    (interval_ends : List α) (defs : List (IntermediateFunctionDef α))
    (fv : Option (α × α)) :
    Except (VerticalProfileError α) (List (IntermediateFunctionDef α)) :=
  ffp_go interval_ends fv (List.range defs.length) defs

/-- The `while !interval_ends.is_empty()` loop of
`generate_intermediate_function_defs`: each boundary altitude is paired with
the next segment definition, with a lookahead at the following boundary. -/
def gi_loop {α : Type} [LinearOrderedField α] :
    List α → List (FunctionDef α) →
      List α × List (IntermediateFunctionDef α)
  | [], _ => ([], [])
  | _ :: _, [] => ([], [])
  | e :: ends, f :: rest =>
    let head := f.into_intermediate (some e) ends.head?
    let tail := gi_loop ends rest
    (head.1 ++ tail.1, head.2 ++ tail.2)

/-- `VerticalProfileBuilder::generate_intermediate_function_defs`
(lines 191-210).  The Rust code removes the first element with
`function_defs.remove(0)` (a panic when empty, never reached through the
builder API, modelled by the empty result). -/
def generate_intermediate_function_defs {α : Type} [LinearOrderedField α]
    (interval_ends : List α) (function_defs : List (FunctionDef α)) :
    List α × List (IntermediateFunctionDef α) :=
  match function_defs with
  | [] => ([], [])
  | first :: rest =>
    let head := first.into_intermediate none interval_ends.head?
    let tail := gi_loop interval_ends rest
    (head.1 ++ tail.1, head.2 ++ tail.2)

/-- `VerticalProfileBuilder::build` (lines 173-189). -/
def VerticalProfileBuilder.build {α : Type} [LinearOrderedField α]
    (b : VerticalProfileBuilder α) :
    Except (VerticalProfileError α) (VerticalProfile α) :=
  let inter := generate_intermediate_function_defs b.interval_ends
    b.function_defs
  match fill_fixed_points inter.1 inter.2 b.fixed_value with
  | .error e => .error e
  | .ok defs =>
    .ok ⟨inter.1, defs.map IntermediateFunctionDef.into_function⟩

/-- Lookup of the interval containing altitude `h`: the index of the first
interval end that is `≥ h`, or the number of ends when all are below `h`.
This models `binary_search_by(|a| a.partial_cmp(&h).unwrap())` with
`Ok(index) | Err(index) => index` on a (strictly sorted) end list, as used by
`PressureProfile::eval` and `from_temperature_profile`. -/
def interval_index {α : Type} [LinearOrderedField α]
    (interval_ends : List α) (h : α) : ℕ :=
  interval_ends.findIdx (fun a => decide (h ≤ a))

/-- Modelled from the spec: `VerticalProfile::eval` is not under `src/`;
per the spec, "evaluation picks the interval via an ordered search over
interval ends and applies the matching closed form", identically to
`PressureProfile::eval` whose source is present. -/
def VerticalProfile.eval {α : Type} [LinearOrderedField α]
    (p : VerticalProfile α) (h : α) : α :=
  (p.interval_functions.getD (interval_index p.altitude_interval_ends h)
    dfltVF).eval h

/-! ## Pressure profiles (src/src/air/atmosphere/pressure_profile.rs)

This part of the code uses `exp`, `powf`, `atan` and `sqrt`, so it is
embedded over `ℝ` (with `powf` modelled by `Real.rpow`). -/

/-- The hydrostatic constant mu*g/R (src/air/atmosphere/mod.rs, line 13). -/
noncomputable def hydroA : ℝ := 0.03416320331088684

/-- The result of the external `cubic_splines` factorisation of a cubic
(`Factors`): three real linear factors, or one linear and one irreducible
quadratic factor. -/
inductive Factors where
  | ThreeLinear (a x1 x2 x3 : ℝ)
  | LinearAndQuadratic (a x1 b c : ℝ)

open Classical in
/-- Modelled from the spec: `CubicPoly::factors` belongs to the external
`cubic_splines` crate (a black box).  It returns the actual factorisation
when one exists; no theorem below depends on the choice made here, only on
the shape of the result. -/
noncomputable def CubicPoly.factors (p : CubicPoly ℝ) : Factors :=
  if h3 : ∃ r : ℝ × ℝ × ℝ,
      ∀ x, p.eval x = p.a * (x - r.1) * (x - r.2.1) * (x - r.2.2) then
    let r := Classical.choose h3
    .ThreeLinear p.a r.1 r.2.1 r.2.2
  else if h1 : ∃ r : ℝ × ℝ × ℝ,
      ∀ x, p.eval x = p.a * (x - r.1) * (x * x + r.2.1 * x + r.2.2) then
    let r := Classical.choose h1
    .LinearAndQuadratic p.a r.1 r.2.1 r.2.2
  else .LinearAndQuadratic p.a 0 0 0

/-- `PressureFunction` (pressure_profile.rs, lines 12-40); the two `[f64; 3]`
arrays of `TriplePower` are spelled out as six scalar fields. -/
inductive PressureFunction where
  /-- p0 * exp(lambda * (h-h0)) -/
  | Exponential (p0 h0 lambda : ℝ)
  /-- p0 * (1 + a * (h - h0)) ^ exp -/
  | Power (p0 h0 a exp_ : ℝ)
  /-- p0 * (1 + a1 * (h - h0)) ^ exp1 * (1 + a2 * (h - h0)) ^ exp2 *
      (1 + a3 * (h - h0)) ^ exp3 -/
  | TriplePower (p0 h0 a1 a2 a3 exp1 exp2 exp3 : ℝ)
  /-- p0 * (1 + a1 * (h - h0))^exp1 * (a2 * (h - h0)^2 + b2*(h - h0) + 1)^exp2 *
      exp(lambda*atan((h - h0)/(a3 * (h - h0) + b3))) -/
  | PowerWithAtan (p0 h0 a1 exp1 a2 b2 exp2 lambda a3 b3 : ℝ)

/-- The `p0` anchor value of each `PressureFunction` variant. -/
def PressureFunction.p0 : PressureFunction → ℝ
  | .Exponential p0 _ _ => p0
  | .Power p0 _ _ _ => p0
  | .TriplePower p0 _ _ _ _ _ _ _ => p0
  | .PowerWithAtan p0 _ _ _ _ _ _ _ _ _ => p0

/-- The `h0` anchor altitude of each `PressureFunction` variant. -/
def PressureFunction.h0 : PressureFunction → ℝ
  | .Exponential _ h0 _ => h0
  | .Power _ h0 _ _ => h0
  | .TriplePower _ h0 _ _ _ _ _ _ => h0
  | .PowerWithAtan _ h0 _ _ _ _ _ _ _ _ => h0

/-- `PressureFunction::eval` (pressure_profile.rs, lines 43-69); Rust `powf`
is modelled by `Real.rpow`. -/
noncomputable def PressureFunction.eval : PressureFunction → ℝ → ℝ
  | .Exponential p0 h0 lambda, h => p0 * Real.exp (lambda * (h - h0))
  | .Power p0 h0 a e, h => p0 * (1 + a * (h - h0)) ^ e
  | .TriplePower p0 h0 a1 a2 a3 e1 e2 e3, h =>
    p0 * (1 + a1 * (h - h0)) ^ e1 * (1 + a2 * (h - h0)) ^ e2 *
      (1 + a3 * (h - h0)) ^ e3
  | .PowerWithAtan p0 h0 a1 e1 a2 b2 e2 lambda a3 b3, h =>
    p0 * (1 + a1 * (h - h0)) ^ e1 *
      (1 + b2 * (h - h0) + a2 * (h - h0) * (h - h0)) ^ e2 *
      Real.exp (lambda * Real.arctan ((h - h0) / (a3 * (h - h0) + b3)))

/-- `PressureFunction::from_temperature_function` (pressure_profile.rs,
lines 71-133). -/
noncomputable def PressureFunction.from_temperature_function
    (temp_function : VerticalFunction ℝ) (p0 h0 : ℝ) : PressureFunction :=
  match temp_function with
  | .Linear a b =>
    if a = 0 then .Exponential p0 h0 (-hydroA / b)
    else .Power p0 h0 (a / (a * h0 + b)) (-hydroA / a)
  | .Cubic poly =>
    match poly.factors with
    | .ThreeLinear a h1 h2 h3 =>
      let v1 := 1 / (h1 - h2) / (h1 - h3)
      let v2 := 1 / (h2 - h1) / (h2 - h3)
      let v3 := 1 / (h3 - h1) / (h3 - h2)
      .TriplePower p0 h0 (1 / (h0 - h1)) (1 / (h0 - h2)) (1 / (h0 - h3))
        (-hydroA * v1 / a) (-hydroA * v2 / a) (-hydroA * v3 / a)
    | .LinearAndQuadratic a h1 b c =>
      let u := h1 * h1 + b * h1 + c
      let v1 := 1 / u
      let v2 := -1 / u
      let v3 := -(h1 + b) / u
      let a1 := 1 / (h0 - h1)
      let exp1 := -hydroA * v1 / a
      let a2 := 1 / (h0 * h0 + b * h0 + c)
      let two_h_b := 2 * h0 + b
      let b2 := two_h_b * a2
      let exp2 := -hydroA * v2 / 2 / a
      let sqrt_ := Real.sqrt (4 * c - b * b)
      let lambda := -hydroA * (2 * v3 - v2 * b) / a / sqrt_
      let a3 := two_h_b / sqrt_
      let b3 := two_h_b * two_h_b / 2 / sqrt_ + sqrt_ / 2
      .PowerWithAtan p0 h0 a1 exp1 a2 b2 exp2 lambda a3 b3

structure PressureProfile where
  altitude_interval_ends : List ℝ
  pressure_functions : List PressureFunction

/-- Default `PressureFunction` used to model slice indexing out of bounds. -/
noncomputable def dfltPF : PressureFunction := .Exponential 0 0 0

/-- The downward propagation of `from_temperature_profile` (lines 157-166):
`pfun_below ... k` is the pressure function at interval `start - k`; the
function at interval `i` is anchored at the boundary `ends[i]` with the value
of the function at interval `i + 1` there. -/
noncomputable def pfun_below (ends : List ℝ) (funs : List (VerticalFunction ℝ))
    (p0 h0 : ℝ) (start : ℕ) : ℕ → PressureFunction
  | 0 => .from_temperature_function (funs.getD start dfltVF) p0 h0
  | k + 1 =>
    .from_temperature_function (funs.getD (start - (k + 1)) dfltVF)
      ((pfun_below ends funs p0 h0 start k).eval
        (ends.getD (start - (k + 1)) 0))
      (ends.getD (start - (k + 1)) 0)

/-- The upward propagation of `from_temperature_profile` (lines 167-178):
`pfun_above ... k` is the pressure function at interval `start + k`; the
function at interval `i` is anchored at the boundary `ends[i-1]` with the
value of the function at interval `i - 1` there. -/
noncomputable def pfun_above (ends : List ℝ) (funs : List (VerticalFunction ℝ))
    (p0 h0 : ℝ) (start : ℕ) : ℕ → PressureFunction
  | 0 => .from_temperature_function (funs.getD start dfltVF) p0 h0
  | k + 1 =>
    .from_temperature_function (funs.getD (start + (k + 1)) dfltVF)
      ((pfun_above ends funs p0 h0 start k).eval
        (ends.getD (start + (k + 1) - 1) 0))
      (ends.getD (start + (k + 1) - 1) 0)

/-- The pressure function at interval `i` produced by
`from_temperature_profile` (the interval containing `h0` is anchored at
`(h0, p0)` directly; the rest propagate outward). -/
noncomputable def pressure_fun_at (ends : List ℝ)
    (funs : List (VerticalFunction ℝ)) (p0 h0 : ℝ) (start i : ℕ) :
    PressureFunction :=
  if i ≤ start then pfun_below ends funs p0 h0 start (start - i)
  else pfun_above ends funs p0 h0 start (i - start)

/-- `PressureProfile::from_temperature_profile` (pressure_profile.rs,
lines 144-186).  The Rust code fills a `BTreeMap` keyed by interval index
(the anchor interval first, then downward, then upward) and collects it in
key order; that collection is the index-ordered list built here.
`temp.internals()` (not under `src/`) is the trivial accessor returning the
profile's two fields. -/
noncomputable def PressureProfile.from_temperature_profile
    (temp : VerticalProfile ℝ) (p0 h0 : ℝ) : PressureProfile :=
  let ends := temp.altitude_interval_ends
  let funs := temp.interval_functions
  let start := interval_index ends h0
  ⟨ends,
   (List.range funs.length).map (pressure_fun_at ends funs p0 h0 start)⟩

/-- `PressureProfile::eval` (pressure_profile.rs, lines 188-195). -/
noncomputable def PressureProfile.eval (p : PressureProfile) (h : ℝ) : ℝ :=
  (p.pressure_functions.getD (interval_index p.altitude_interval_ends h)
    dfltPF).eval h

/-! ## NaN-aware view of `PressureProfile::eval` (for the lookup panic)

The query altitude of `PressureProfile::eval` is an arbitrary `f64`, so it
may be NaN, which the `ℝ`-embedding cannot represent.  For this single claim
the query is modelled as `Option ℝ` with `none` standing for NaN.  Rust's
`binary_search_by(|a| a.partial_cmp(&h).unwrap())` calls the comparator at
least once on a non-empty slice — and `a.partial_cmp(&NaN)` is `None`, so the
`unwrap` panics (modelled as `Except.error ()`) — but never calls it on an
empty slice, returning `Err(0)` directly. -/

noncomputable def binary_search_f64 (interval_ends : List ℝ) (h : Option ℝ) :
    Except Unit ℕ :=
  match interval_ends, h with
  | [], _ => .ok 0
  | _ :: _, none => .error ()
  | es@(_ :: _), some x => .ok (interval_index es x)

/-- NaN propagation through `PressureFunction::eval`: every arithmetic
operation, `exp`, `atan` and `powf` with the nonzero exponents produced by
`from_temperature_function` map a NaN input to NaN. -/
noncomputable def PressureFunction.eval_f64 (f : PressureFunction) :
    Option ℝ → Option ℝ
  | none => none
  | some h => some (f.eval h)

/-- `PressureProfile::eval` on a possibly-NaN query altitude: the interval
lookup panics (`Except.error ()`) whenever the comparator meets the NaN. -/
noncomputable def PressureProfile.eval_checked (p : PressureProfile)
    (h : Option ℝ) : Except Unit (Option ℝ) :=
  match binary_search_f64 p.altitude_interval_ends h with
  | .error e => .error e
  | .ok index => .ok ((p.pressure_functions.getD index dfltPF).eval_f64 h)

/-! ## Atmosphere (src/src/air/atmosphere/mod.rs) -/

structure PressureFixedPoint where
  altitude : ℝ
  pressure : ℝ

structure FunctionDefWithAlt where
  altitude : ℝ
  function : FunctionDef ℝ

structure TemperatureFixedPoint where
  altitude : ℝ
  temperature : ℝ

structure HumidityFixedPoint where
  altitude : ℝ
  humidity : ℝ

structure AtmosphereDef where
  pressure : PressureFixedPoint
  first_temperature_function : FunctionDef ℝ
  next_functions : List FunctionDefWithAlt
  temperature_fixed_point : Option TemperatureFixedPoint
  first_humidity_function : FunctionDef ℝ
  next_humidity_functions : List FunctionDefWithAlt
  humidity_fixed_point : Option HumidityFixedPoint

/-- `AtmosphereDef::us_76` (mod.rs, lines 64-113). -/
noncomputable def AtmosphereDef.us_76 : AtmosphereDef where
  pressure := ⟨0, 101325⟩
  first_temperature_function := .Linear (-0.0065)
  next_functions :=
    [⟨11e3, .Linear 0⟩, ⟨20e3, .Linear 0.001⟩, ⟨32e3, .Linear 0.0028⟩,
     ⟨47e3, .Linear 0⟩, ⟨51e3, .Linear (-0.0028)⟩, ⟨71e3, .Linear (-0.002)⟩,
     ⟨84.852e3, .Linear 0⟩]
  temperature_fixed_point := some ⟨0, 288⟩
  first_humidity_function := .Linear 0
  next_humidity_functions := []
  humidity_fixed_point := some ⟨0, 0⟩

structure Atmosphere where
  pressure_profile : PressureProfile
  temperature_profile : VerticalProfile ℝ
  humidity_profile : VerticalProfile ℝ

/-- `Atmosphere::from_def` (mod.rs, lines 143-173).  The Rust code unwraps
the two builder results (a panic on a malformed definition); that unwrap is
modelled by propagating the builder error through `Except`. -/
noncomputable def Atmosphere.from_def (d : AtmosphereDef) :
    Except (VerticalProfileError ℝ) Atmosphere :=
  let tb0 := VerticalProfileBuilder.new d.first_temperature_function
  let tb1 := match d.temperature_fixed_point with
    | some pt => tb0.with_fixed_value pt.altitude pt.temperature
    | none => tb0
  let tb2 := d.next_functions.foldl
    (fun b fd => b.with_next_function fd.altitude fd.function) tb1
  match tb2.build with
  | .error e => .error e
  | .ok temperature =>
    let hb0 := VerticalProfileBuilder.new d.first_humidity_function
    let hb1 := match d.humidity_fixed_point with
      | some pt => hb0.with_fixed_value pt.altitude pt.humidity
      | none => hb0
    let hb2 := d.next_humidity_functions.foldl
      (fun b fd => b.with_next_function fd.altitude fd.function) hb1
    match hb2.build with
    | .error e => .error e
    | .ok humidity =>
      .ok ⟨PressureProfile.from_temperature_profile temperature
             d.pressure.pressure d.pressure.altitude,
           temperature, humidity⟩

/-- `Atmosphere::temperature` (mod.rs, lines 176-178). -/
noncomputable def Atmosphere.temperature (atm : Atmosphere) (h : ℝ) : ℝ :=
  atm.temperature_profile.eval h

/-- `Atmosphere::pressure` (mod.rs, lines 186-188). -/
noncomputable def Atmosphere.pressure (atm : Atmosphere) (h : ℝ) : ℝ :=
  atm.pressure_profile.eval h

/-- `Atmosphere::humidity` (mod.rs, lines 198-200). -/
noncomputable def Atmosphere.humidity (atm : Atmosphere) (h : ℝ) : ℝ :=
  atm.humidity_profile.eval h

/-! ## Saturated vapor pressure (src/src/air/vapor.rs) -/

noncomputable def vapor_omega (t : ℝ) : ℝ :=
  t + (-2.38555575678e-1) / (t - 6.50175348448e2)

noncomputable def vapor_a (t : ℝ) : ℝ :=
  let o := vapor_omega t
  o * o + 1.16705214528e3 * o + (-7.24213167032e5)

noncomputable def vapor_b (t : ℝ) : ℝ :=
  let o := vapor_omega t
  (-1.70738469401e1) * o * o + 1.20208247025e4 * o + (-3.23255503223e6)

noncomputable def vapor_c (t : ℝ) : ℝ :=
  let o := vapor_omega t
  1.49151086135e1 * o * o + (-4.82326573616e3) * o + 4.05113405421e5

noncomputable def vapor_x (t : ℝ) : ℝ :=
  -vapor_b t + Real.sqrt (vapor_b t * vapor_b t - 4 * vapor_a t * vapor_c t)

/-- `p_sv`: saturated vapor pressure over water (vapor.rs). -/
noncomputable def p_sv (temp : ℝ) : ℝ :=
  (2 * vapor_c temp / vapor_x temp) ^ (4 : ℕ) * 1e6

/-! ## Refractive index (src/src/air/refractive.rs, src/src/environment.rs) -/

/-- Modelled from the spec: `air_index_minus_1` is not under `src/` (only
`air_index`, the same modified-Edlen expression plus the leading 1, is); this
is that expression without the 1. -/
noncomputable def air_index_minus_1 (lambda p t rh : ℝ) : ℝ :=
  let lambda_um := lambda * 1e6
  let s := 1 / lambda_um / lambda_um
  let t1 := t - 273.15
  let alpha := 1e-8 * (8342.54 + 2406147 / (130 - s) + 15998 / (38.9 - s))
  let beta := 1e-8 * 0.601
  let gamma := -1e-8 * 0.00972
  let delta := (96095.43 : ℝ)
  let epsilon := 96095.43 * 0.003661
  let zeta := (3.7345 - s * 0.0401) * 1e-10
  let pv := rh / 100 * p_sv t
  alpha * p * (1 + beta * p + gamma * t1 * p) / (delta + epsilon * t1) -
    292.75 / t * zeta * pv

/-- `EarthShape` (environment.rs, lines 6-9). -/
inductive EarthShape where
  | Spherical (radius : ℝ)
  | Flat

structure Environment where
  shape : EarthShape
  atmosphere : Atmosphere

/-- `Environment::n_minus_1` (environment.rs, lines 20-26). -/
noncomputable def Environment.n_minus_1 (env : Environment) (h : ℝ) : ℝ :=
  air_index_minus_1 530e-9 (env.atmosphere.pressure h)
    (env.atmosphere.temperature h) 0

/-- `Environment::n` (environment.rs, lines 30-32). -/
noncomputable def Environment.n (env : Environment) (h : ℝ) : ℝ :=
  env.n_minus_1 h + 1

/-- `Environment::dn` (environment.rs, lines 37-42). -/
noncomputable def Environment.dn (env : Environment) (h : ℝ) : ℝ :=
  (env.n_minus_1 (h + 0.01) - env.n_minus_1 (h - 0.01)) / (2 * 0.01)

/-- `Environment::radius` (environment.rs, lines 45-50). -/
def Environment.radius (env : Environment) : Option ℝ :=
  match env.shape with
  | .Spherical radius => some radius
  | .Flat => none

/-! ## Ray state and Runge-Kutta integration (src/src/paths/) -/

/-- Modelled from the spec: the current `RayState {x, h, dh}` is not under
`src/` (the checked-in `ray_state.rs` is an older snapshot with a `dr`
field); per the spec it is the ODE state vector
"`{x: distance traveled, h: altitude, dh: local slope}`". -/
structure RayState where
  x : ℝ
  h : ℝ
  dh : ℝ

/-- Modelled from the spec: `RayStateDerivative {dx, dh, d2h}`, the vector
of derivatives consumed by the RK4 stepper. -/
structure RayStateDerivative where
  dx : ℝ
  dh : ℝ
  d2h : ℝ

/-- `State::shift_in_place`: componentwise `state += derivative * amount`
(as in the snapshot `ray_state.rs`, with the current field names). -/
noncomputable def RayState.shift (s : RayState) (d : RayStateDerivative) (amount : ℝ) :
    RayState :=
  ⟨s.x + d.dx * amount, s.h + d.dh * amount, s.dh + d.d2h * amount⟩

/-- Modelled from the spec: one step of the external `numeric_algs`
`RK4Integrator` ("a 4th-order Runge-Kutta stepper"), the classical RK4
update. -/
noncomputable def rk4_step (deriv : RayState → RayStateDerivative) (step : ℝ)
    (s : RayState) : RayState :=
  let k1 := deriv s
  let k2 := deriv (s.shift k1 (step / 2))
  let k3 := deriv (s.shift k2 (step / 2))
  let k4 := deriv (s.shift k3 step)
  ⟨s.x + (k1.dx + 2 * k2.dx + 2 * k3.dx + k4.dx) * (step / 6),
   s.h + (k1.dh + 2 * k2.dh + 2 * k3.dh + k4.dh) * (step / 6),
   s.dh + (k1.d2h + 2 * k2.d2h + 2 * k3.d2h + k4.d2h) * (step / 6)⟩

/-- `Environment::calc_derivative_spherical` (environment.rs, lines 52-68).
The Rust code unwraps `self.radius()` (a panic for a flat environment, never
reached since only spherical rays call it); the flat case is modelled by the
junk radius 0. -/
noncomputable def Environment.calc_derivative_spherical (env : Environment)
    (state : RayState) : RayStateDerivative :=
  let radius := (env.radius).getD 0
  let dh := state.dh * radius
  let h := state.h
  let nr := env.n h
  let dnr := env.dn h
  let r := h + radius
  let d2h := dh * dh * dnr / nr + r * r * dnr / nr + 2 * dh * dh / r + r
  ⟨1, state.dh, d2h / radius / radius⟩

/-- `Environment::calc_derivative_flat` (environment.rs, lines 70-80). -/
noncomputable def Environment.calc_derivative_flat (env : Environment)
    (state : RayState) : RayStateDerivative :=
  let dh := state.dh
  let nr := env.n state.h
  let dnr := env.dn state.h
  ⟨1, dh, dnr / nr * (1 + dh * dh)⟩

/-- The `while state.x < tgt_x` loop of `flat::Ray::state_at_dist`
(paths/flat.rs, lines 103-109), advancing by the default 5 m RK4 step.  The
`fuel` bound is harmless: `x` grows by exactly 5 every iteration (the `dx`
derivative is constantly 1), so any fuel above `tgt_x / 5` reproduces the
unbounded Rust loop. -/
noncomputable def flat_loop (env : Environment) (tgt_x : ℝ) :
    ℕ → RayState → RayState
  | 0, s => s
  | fuel + 1, s =>
    if s.x < tgt_x then
      flat_loop env tgt_x fuel (rk4_step env.calc_derivative_flat 5 s)
    else s

/-- `flat::Ray::state_at_dist` (paths/flat.rs, lines 89-112). -/
noncomputable def flat_state_at_dist (env : Environment)
    (start_h start_dh dist : ℝ) : RayState :=
  let tgt_x := |dist|
  let s0 : RayState := ⟨0, start_h, if 0 ≤ dist then start_dh else -start_dh⟩
  flat_loop env tgt_x (Nat.ceil (tgt_x / 5) + 1) s0

/-- The `while state.x < tgt_dist - def_step` loop of
`spherical::Ray::state_at_dist` (paths/spherical.rs, lines 133-139); fuel
bound as in `flat_loop`. -/
noncomputable def spherical_loop (env : Environment) (tgt_dist : ℝ) :
    ℕ → RayState → RayState
  | 0, s => s
  | fuel + 1, s =>
    if s.x < tgt_dist - 5 then
      spherical_loop env tgt_dist fuel
        (rk4_step env.calc_derivative_spherical 5 s)
    else s

/-- `spherical::Ray::state_at_dist` (paths/spherical.rs, lines 119-148): the
main loop stops one default step short of the target and the final partial
step is truncated to exactly the remaining distance. -/
noncomputable def spherical_state_at_dist (env : Environment)
    (start_h start_dh dist : ℝ) : RayState :=
  let tgt_dist := |dist|
  let s0 : RayState := ⟨0, start_h, if 0 ≤ dist then start_dh else -start_dh⟩
  let s1 := spherical_loop env tgt_dist (Nat.ceil (tgt_dist / 5) + 1) s0
  let last_step := tgt_dist - s1.x
  rk4_step env.calc_derivative_spherical last_step s1

/-- Modelled from the spec: `RayState::get_angle` is not under `src/`.  It
returns "the angle (in radians) between the path and the horizontal plane"
(paths/mod.rs doc), the inverse of the slope used by `from_h_ang`:
`atan(dh)` for a flat shape (as in `flat::Line::angle_at_dist`), and
`atan(dh * radius / (h + radius))` for a spherical one (inverting
`dh = (h + r) * tan(ang) / r` of `spherical::Ray::from_h_ang`). -/
noncomputable def RayState.get_angle (state : RayState) (env : Environment) :
    ℝ :=
  match env.shape with
  | .Flat => Real.arctan state.dh
  | .Spherical radius =>
    Real.arctan (state.dh * radius / (state.h + radius))

/-- `h_at_dist` of a curved ray cast by `Environment::cast_ray` with
`straight = false`: `flat::Ray::from_h_ang` launches with slope `tan(ang)`
(paths/flat.rs, line 81), `spherical::Ray::from_h_ang` with
`(h + r) * tan(ang) / r` (paths/spherical.rs, line 111). -/
noncomputable def Environment.h_at_dist_curved (env : Environment)
    (start_h start_ang dist : ℝ) : ℝ :=
  match env.shape with
  | .Flat =>
    (flat_state_at_dist env start_h (Real.tan start_ang) dist).h
  | .Spherical r =>
    (spherical_state_at_dist env start_h
      ((start_h + r) * Real.tan start_ang / r) dist).h

/-- `angle_at_dist` of a curved ray cast by `Environment::cast_ray` with
`straight = false`. -/
noncomputable def Environment.angle_at_dist_curved (env : Environment)
    (start_h start_ang dist : ℝ) : ℝ :=
  match env.shape with
  | .Flat =>
    (flat_state_at_dist env start_h (Real.tan start_ang) dist).get_angle env
  | .Spherical r =>
    (spherical_state_at_dist env start_h
      ((start_h + r) * Real.tan start_ang / r) dist).get_angle env

/-! ## Target-seeking bisection (src/src/environment.rs, lines 150-187) -/

/-- The `while max_ang - min_ang > epsilon` bisection loop of
`cast_ray_target` for curved rays, abstracted over the altitude response
`F = fun ang => cast_ray(start_h, ang, false).h_at_dist(tgt_dist)`.  The
bracket width is exactly halved each iteration, so the loop runs exactly 32
times (`3 / 2^31 > 1e-9 ≥ 3 / 2^32`); fuel 32 therefore reproduces the
unbounded Rust loop (proved below). -/
noncomputable def bisect_loop (F : ℝ → ℝ) (tgt_h : ℝ) :
    ℕ → ℝ × ℝ → ℝ × ℝ
  | 0, b => b
  | fuel + 1, b =>
    if 1e-9 < b.2 - b.1 then
      if tgt_h < F (0.5 * (b.1 + b.2)) then
        bisect_loop F tgt_h fuel (b.1, 0.5 * (b.1 + b.2))
      else bisect_loop F tgt_h fuel (0.5 * (b.1 + b.2), b.2)
    else b

/-- The launch angle returned by `cast_ray_target` for curved rays: the
midpoint of the final bracket starting from `(-1.5, 1.5)`. -/
noncomputable def cast_ray_target_angle (F : ℝ → ℝ) (tgt_h : ℝ) : ℝ :=
  let b := bisect_loop F tgt_h 32 (-1.5, 1.5)
  0.5 * (b.1 + b.2)

/-- `Environment::cast_ray_target` with `straight = false` returns
`cast_ray(start_h, angle, false)` at this bisected angle. -/
noncomputable def Environment.cast_ray_target_curved_angle
    (env : Environment) (start_h tgt_h tgt_dist : ℝ) : ℝ :=
  cast_ray_target_angle
    (fun ang => env.h_at_dist_curved start_h ang tgt_dist) tgt_h

/-! ## Helper lemmas -/

theorem getD_range_map {β : Type} (n i : ℕ) (f : ℕ → β) (d : β)
    (h : i < n) : ((List.range n).map f).getD i d = f i := by
  rw [List.getD_eq_getElem?_getD, List.getElem?_map, List.getElem?_range h]
  rfl

/-- Every `PressureFunction` variant evaluated at its own anchor altitude
returns exactly its anchor value. -/
theorem PressureFunction.eval_at_anchor (f : PressureFunction) :
    f.eval f.h0 = f.p0 := by
  cases f <;>
    simp [PressureFunction.eval, PressureFunction.h0, PressureFunction.p0,
      sub_self, Real.one_rpow, Real.exp_zero, Real.arctan_zero, zero_div]

theorem from_temperature_function_h0 (tf : VerticalFunction ℝ) (P H : ℝ) :
    (PressureFunction.from_temperature_function tf P H).h0 = H := by
  cases tf with
  | Linear a b =>
    by_cases ha : a = 0 <;>
      simp [PressureFunction.from_temperature_function, ha,
        PressureFunction.h0]
  | Cubic poly =>
    cases hf : poly.factors <;>
      simp [PressureFunction.from_temperature_function, hf,
        PressureFunction.h0]

theorem from_temperature_function_p0 (tf : VerticalFunction ℝ) (P H : ℝ) :
    (PressureFunction.from_temperature_function tf P H).p0 = P := by
  cases tf with
  | Linear a b =>
    by_cases ha : a = 0 <;>
      simp [PressureFunction.from_temperature_function, ha,
        PressureFunction.p0]
  | Cubic poly =>
    cases hf : poly.factors <;>
      simp [PressureFunction.from_temperature_function, hf,
        PressureFunction.p0]

/-- The derived pressure function of any temperature interval, evaluated at
its anchor altitude, returns its anchor pressure. -/
theorem from_temperature_function_anchor (tf : VerticalFunction ℝ)
    (P H : ℝ) :
    (PressureFunction.from_temperature_function tf P H).eval H = P := by
  have h := PressureFunction.eval_at_anchor
    (PressureFunction.from_temperature_function tf P H)
  rwa [from_temperature_function_h0, from_temperature_function_p0] at h

/-- Adjacent pressure functions produced by the outward propagation agree at
the shared boundary altitude (exactly, in the real-number model). -/
theorem pressure_fun_adjacent (ends : List ℝ)
    (funs : List (VerticalFunction ℝ)) (p0 h0 : ℝ) (start i : ℕ) :
    (pressure_fun_at ends funs p0 h0 start i).eval (ends.getD i 0) =
      (pressure_fun_at ends funs p0 h0 start (i + 1)).eval
        (ends.getD i 0) := by
  rcases lt_or_le i start with hlt | hge
  · -- below the anchor interval: interval i is anchored at `ends[i]` with
    -- the value of interval i+1 there
    have h1 : i ≤ start := le_of_lt hlt
    have h2 : i + 1 ≤ start := hlt
    have hk : start - i = (start - (i + 1)) + 1 := by omega
    have hi : start - ((start - (i + 1)) + 1) = i := by omega
    rw [pressure_fun_at, if_pos h1, pressure_fun_at, if_pos h2, hk,
      pfun_below, hi, from_temperature_function_anchor]
  · -- at or above the anchor interval: interval i+1 is anchored at
    -- `ends[i]` with the value of interval i there
    have h2 : ¬ (i + 1 ≤ start) := by omega
    have hk : i + 1 - start = (i - start) + 1 := by omega
    have hi : start + ((i - start) + 1) - 1 = i := by omega
    have hrhs : pressure_fun_at ends funs p0 h0 start (i + 1) =
        PressureFunction.from_temperature_function
          (funs.getD (start + ((i - start) + 1)) dfltVF)
          ((pfun_above ends funs p0 h0 start (i - start)).eval
            (ends.getD i 0))
          (ends.getD i 0) := by
      rw [pressure_fun_at, if_neg h2, hk, pfun_above, hi]
    rw [hrhs, from_temperature_function_anchor]
    rcases eq_or_lt_of_le hge with heq | hgt
    · rw [pressure_fun_at, if_pos (by omega)]
      have e1 : start - i = 0 := by omega
      have e2 : i - start = 0 := by omega
      rw [e1, e2, pfun_below, pfun_above, heq]
    · rw [pressure_fun_at, if_neg (by omega)]

/-- C1.  For every built `PressureProfile` the two pressure functions of any
pair of adjacent intervals agree exactly at the shared boundary altitude (so
in particular within the 1e-6 relative tolerance): construction propagates
outward from the interval containing `h0`, anchoring each neighbour at the
boundary value, and every `PressureFunction` variant evaluated at its own
anchor altitude `h0` returns exactly its `p0`. -/
theorem c1_pressure_continuity :
    (∀ f : PressureFunction, f.eval f.h0 = f.p0) ∧
    ∀ (temp : VerticalProfile ℝ) (p0 h0 : ℝ) (i : ℕ),
      i + 1 <
        (PressureProfile.from_temperature_profile temp p0
          h0).pressure_functions.length →
      ((PressureProfile.from_temperature_profile temp p0
          h0).pressure_functions.getD i dfltPF).eval
        ((PressureProfile.from_temperature_profile temp p0
          h0).altitude_interval_ends.getD i 0) =
      ((PressureProfile.from_temperature_profile temp p0
          h0).pressure_functions.getD (i + 1) dfltPF).eval
        ((PressureProfile.from_temperature_profile temp p0
          h0).altitude_interval_ends.getD i 0) := by
  refine ⟨PressureFunction.eval_at_anchor, ?_⟩
  intro temp p0 h0 i hi
  have hlen :
      (PressureProfile.from_temperature_profile temp p0
        h0).pressure_functions.length = temp.interval_functions.length := by
    simp [PressureProfile.from_temperature_profile]
  rw [hlen] at hi
  show ((PressureProfile.from_temperature_profile temp p0
      h0).pressure_functions.getD i dfltPF).eval
      (temp.altitude_interval_ends.getD i 0) = _
  rw [PressureProfile.from_temperature_profile]
  rw [getD_range_map _ _ _ _ (by omega), getD_range_map _ _ _ _ hi]
  exact pressure_fun_adjacent _ _ _ _ _ _

/-- Concrete two-interval temperature profile used by witnesses. -/
noncomputable def vp_two : VerticalProfile ℝ :=
  ⟨[1], [.Linear 0 2, .Linear 0 3]⟩

/-- Witness for C1 at a concrete two-interval profile. -/
theorem c1_pressure_continuity_witness :
    ((PressureProfile.from_temperature_profile vp_two 5
        0).pressure_functions.getD 0 dfltPF).eval
      ((PressureProfile.from_temperature_profile vp_two 5
        0).altitude_interval_ends.getD 0 0) =
    ((PressureProfile.from_temperature_profile vp_two 5
        0).pressure_functions.getD 1 dfltPF).eval
      ((PressureProfile.from_temperature_profile vp_two 5
        0).altitude_interval_ends.getD 0 0) :=
  c1_pressure_continuity.2 vp_two 5 0 0
    (by simp [PressureProfile.from_temperature_profile, vp_two])

/-- C2.  A constant temperature interval `T = b` yields the exponential
pressure function with `lambda = -A/b`; a linear interval `T = a*h + b` with
`a ≠ 0` yields the power function with `a' = a/(a*h0+b)` and
`exp = -A/a`, where `A = 0.03416320331088684` is the hydrostatic constant
mu*g/R. -/
theorem c2_pressure_function_derivation :
    hydroA = 0.03416320331088684 ∧
    ∀ a b p0 h0 : ℝ,
      (a = 0 →
        PressureFunction.from_temperature_function (.Linear a b) p0 h0 =
          .Exponential p0 h0 (-hydroA / b)) ∧
      (a ≠ 0 →
        PressureFunction.from_temperature_function (.Linear a b) p0 h0 =
          .Power p0 h0 (a / (a * h0 + b)) (-hydroA / a)) := by
  refine ⟨rfl, ?_⟩
  intro a b p0 h0
  constructor <;> intro ha <;>
    simp [PressureFunction.from_temperature_function, ha]

/-- Witness for C2 at both branches with concrete parameters. -/
theorem c2_pressure_function_derivation_witness :
    PressureFunction.from_temperature_function (.Linear 0 288) 101325 0 =
      .Exponential 101325 0 (-hydroA / 288) ∧
    PressureFunction.from_temperature_function (.Linear 1 2) 3 4 =
      .Power 3 4 (1 / (1 * 4 + 2)) (-hydroA / 1) :=
  ⟨(c2_pressure_function_derivation.2 0 288 101325 0).1 rfl,
   (c2_pressure_function_derivation.2 1 2 3 4).2 one_ne_zero⟩

/-! ## C10: NaN query altitudes and the interval-lookup panic -/

theorem interval_index_above {α : Type} [LinearOrderedField α]
    (ends : List α) (x : α) (h : ∀ e ∈ ends, e < x) :
    interval_index ends x = ends.length := by
  rw [interval_index, List.findIdx_eq_length]
  intro e he
  simpa using not_le.mpr (h e he)

theorem interval_index_below {α : Type} [LinearOrderedField α]
    (ends : List α) (x : α) (h : ∀ e ∈ ends, x ≤ e) :
    interval_index ends x = 0 := by
  cases ends with
  | nil => rfl
  | cons e rest =>
    rw [interval_index, List.findIdx_cons]
    have : x ≤ e := h e (List.mem_cons_self e rest)
    simp [this]

/-- A single-interval pressure profile, as built from a one-segment
temperature profile: its `altitude_interval_ends` list is empty. -/
noncomputable def single_interval_pressure : PressureProfile :=
  PressureProfile.from_temperature_profile ⟨[], [.Linear 0 288]⟩ 101325 0

/-- Counterexample to C10 as stated: on a NaN query the single-interval
profile's `eval` does not panic.  Rust's `binary_search_by` never calls the
comparator on an empty slice (it returns `Err(0)` immediately), so no
`partial_cmp(...).unwrap()` runs and the outcome is the NaN value of the
single pressure function, not a panic. -/
theorem c10_nan_counterexample :
    single_interval_pressure.eval_checked none = Except.ok none ∧
    single_interval_pressure.eval_checked none ≠ Except.error () ∧
    single_interval_pressure.altitude_interval_ends = [] := by
  exact ⟨rfl, fun h => Except.noConfusion h, rfl⟩

/-- C10 (amended).  A NaN query altitude makes `PressureProfile::eval` panic
via the unwrapped `partial_cmp` whenever the profile has at least one
interval end (the comparator is then invoked at least once); a profile with
no interval ends never invokes the comparator and returns a value instead.
For every non-NaN query the lookup succeeds, `eval` is total, and altitudes
beyond the outermost interval ends silently use the outermost interval's
function. -/
theorem c10_nan_lookup :
    ∀ p : PressureProfile,
      (p.altitude_interval_ends ≠ [] →
        p.eval_checked none = Except.error ()) ∧
      (∀ x : ℝ, p.eval_checked (some x) = Except.ok (some (p.eval x))) ∧
      (∀ x : ℝ, (∀ e ∈ p.altitude_interval_ends, e < x) →
        p.eval x =
          (p.pressure_functions.getD p.altitude_interval_ends.length
            dfltPF).eval x) ∧
      (∀ x : ℝ, (∀ e ∈ p.altitude_interval_ends, x ≤ e) →
        p.eval x = (p.pressure_functions.getD 0 dfltPF).eval x) := by
  intro p
  obtain ⟨ends, funs⟩ := p
  refine ⟨?_, ?_, ?_, ?_⟩
  · intro hne
    cases ends with
    | nil => exact absurd rfl hne
    | cons e rest => rfl
  · intro x
    cases ends with
    | nil => rfl
    | cons e rest => rfl
  · intro x hx
    rw [PressureProfile.eval, interval_index_above _ _ hx]
  · intro x hx
    rw [PressureProfile.eval, interval_index_below _ _ hx]

/-- Concrete two-interval pressure profile used by witnesses. -/
noncomputable def pp_two : PressureProfile :=
  ⟨[1], [.Exponential 2 0 1, .Exponential 3 0 1]⟩

/-- Witness for the amended C10 at a concrete profile with one interval
end. -/
theorem c10_nan_lookup_witness :
    pp_two.eval_checked none = Except.error () ∧
    pp_two.eval_checked (some 5) = Except.ok (some (pp_two.eval 5)) ∧
    pp_two.eval 5 = (pp_two.pressure_functions.getD 1 dfltPF).eval 5 ∧
    pp_two.eval 0 = (pp_two.pressure_functions.getD 0 dfltPF).eval 0 := by
  obtain ⟨h1, h2, h3, h4⟩ := c10_nan_lookup pp_two
  refine ⟨h1 (by simp [pp_two]), h2 5, ?_, ?_⟩
  · have := h3 5 (by intro e he; simp [pp_two] at he; norm_num [he])
    simpa [pp_two] using this
  · have := h4 0 (by intro e he; simp [pp_two] at he; norm_num [he])
    simpa [pp_two] using this

/-! ## Ray integration: distance bookkeeping (C6, C7) -/

/-- Both ODE right-hand sides have `dx = 1`, so one RK4 step advances `x`
by exactly the step size. -/
theorem rk4_step_x (D : RayState → RayStateDerivative)
    (hD : ∀ s, (D s).dx = 1) (step : ℝ) (s : RayState) :
    (rk4_step D step s).x = s.x + step := by
  simp only [rk4_step]
  rw [hD, hD, hD, hD]
  ring

/-- A step of size zero is the identity. -/
theorem rk4_step_zero (D : RayState → RayStateDerivative) (s : RayState) :
    rk4_step D 0 s = s := by
  simp [rk4_step, RayState.shift]

theorem flat_loop_ge (env : Environment) (tgt : ℝ) :
    ∀ (fuel : ℕ) (s : RayState), tgt ≤ s.x + 5 * fuel →
      tgt ≤ (flat_loop env tgt fuel s).x := by
  intro fuel
  induction fuel with
  | zero => intro s hs; simpa using hs
  | succ n ih =>
    intro s hs
    rw [flat_loop]
    by_cases hx : s.x < tgt
    · rw [if_pos hx]
      apply ih
      rw [rk4_step_x _ (fun t => rfl)]
      push_cast at hs ⊢
      linarith
    · rw [if_neg hx]
      linarith [not_lt.mp hx]

theorem flat_loop_lt (env : Environment) (tgt : ℝ) :
    ∀ (fuel : ℕ) (s : RayState), s.x < tgt + 5 →
      (flat_loop env tgt fuel s).x < tgt + 5 := by
  intro fuel
  induction fuel with
  | zero => intro s hs; exact hs
  | succ n ih =>
    intro s hs
    rw [flat_loop]
    by_cases hx : s.x < tgt
    · rw [if_pos hx]
      apply ih
      rw [rk4_step_x _ (fun t => rfl)]
      linarith
    · rw [if_neg hx]
      exact hs

/-- C6 (amended).  Spherical curved rays truncate the final partial RK4 step
exactly to the requested target distance, so the state is read off at
distance coordinate exactly `|d|`; flat curved rays advance in full default
5 m steps with no truncation, so the state is read off at the first step
boundary at or past `|d|` (an overshoot of less than one 5 m step). -/
theorem c6_integration_distance :
    ∀ (env : Environment) (h dh d : ℝ),
      (spherical_state_at_dist env h dh d).x = |d| ∧
      |d| ≤ (flat_state_at_dist env h dh d).x ∧
      (flat_state_at_dist env h dh d).x < |d| + 5 := by
  intro env h dh d
  refine ⟨?_, ?_, ?_⟩
  · simp only [spherical_state_at_dist]
    rw [rk4_step_x _ (fun t => rfl)]
    ring
  · simp only [flat_state_at_dist]
    apply flat_loop_ge
    have h1 : |d| / 5 ≤ (Nat.ceil (|d| / 5) : ℝ) := Nat.le_ceil _
    show |d| ≤ 0 + 5 * ((Nat.ceil (|d| / 5) + 1 : ℕ) : ℝ)
    push_cast
    linarith
  · simp only [flat_state_at_dist]
    apply flat_loop_lt
    show (0 : ℝ) < |d| + 5
    have := abs_nonneg d
    linarith

/-- A degenerate concrete atmosphere (single-interval profiles), enough to
instantiate an `Environment` for concrete ray computations. -/
noncomputable def atm_const : Atmosphere :=
  ⟨⟨[], [.Exponential 101325 0 1]⟩, ⟨[], [.Linear 0 288]⟩,
   ⟨[], [.Linear 0 0]⟩⟩

/-- A flat environment over the degenerate atmosphere. -/
noncomputable def env_flat : Environment := ⟨.Flat, atm_const⟩

/-- Counterexample to C6 as stated: a flat curved ray queried at distance
7 m reads its state off at `x = 10` (two full 5 m steps), not at exactly 7:
the flat integration loop has no truncated final step. -/
theorem c6_flat_overshoot_counterexample :
    (flat_state_at_dist env_flat 0 0 7).x = 10 ∧ (10 : ℝ) ≠ 7 := by
  constructor
  · have key : ∀ s : RayState, s.x = 0 → (flat_loop env_flat 7 3 s).x = 10 := by
      intro s hs
      rw [flat_loop, if_pos (by rw [hs]; norm_num)]
      have hx1 : (rk4_step env_flat.calc_derivative_flat 5 s).x = 5 := by
        rw [rk4_step_x _ (fun t => rfl), hs]; norm_num
      rw [flat_loop, if_pos (by rw [hx1]; norm_num)]
      have hx2 : (rk4_step env_flat.calc_derivative_flat 5
          (rk4_step env_flat.calc_derivative_flat 5 s)).x = 10 := by
        rw [rk4_step_x _ (fun t => rfl), hx1]; norm_num
      rw [flat_loop, if_neg (by rw [hx2]; norm_num)]
      exact hx2
    have habs : |(7 : ℝ)| = 7 := by norm_num
    have hceil : Nat.ceil ((7 : ℝ) / 5) = 2 :=
      (Nat.ceil_eq_iff (by norm_num)).mpr (by norm_num)
    simp only [flat_state_at_dist, habs, hceil]
    exact key _ rfl
  · norm_num

/-- States queried at distance zero are the launch state (flat shape). -/
theorem flat_state_zero (env : Environment) (h dh : ℝ) :
    flat_state_at_dist env h dh 0 = ⟨0, h, dh⟩ := by
  have hceil : Nat.ceil ((0 : ℝ) / 5) = 0 := by norm_num
  simp only [flat_state_at_dist, abs_zero, hceil]
  rw [if_pos le_rfl, flat_loop, if_neg (lt_irrefl _)]

/-- States queried at distance zero are the launch state (spherical
shape). -/
theorem spherical_state_zero (env : Environment) (h dh : ℝ) :
    spherical_state_at_dist env h dh 0 = ⟨0, h, dh⟩ := by
  have hceil : Nat.ceil ((0 : ℝ) / 5) = 0 := by norm_num
  simp only [spherical_state_at_dist, abs_zero, hceil]
  rw [if_pos le_rfl, spherical_loop, if_neg (by norm_num)]
  show rk4_step _ (0 - (0 : ℝ)) _ = _
  rw [show (0 : ℝ) - 0 = 0 by norm_num, rk4_step_zero]

/-- For a strictly positive distance, querying at `-d` equals querying the
sign-flipped launch slope at `d` (flat shape): both integrate the same
initial state over the same non-negative magnitude. -/
theorem flat_state_neg (env : Environment) (h dh d : ℝ) (hd : 0 < d) :
    flat_state_at_dist env h dh (-d) = flat_state_at_dist env h (-dh) d := by
  simp only [flat_state_at_dist, abs_neg]
  rw [if_neg (by linarith), if_pos (le_of_lt hd)]

/-- For a strictly positive distance, querying at `-d` equals querying the
sign-flipped launch slope at `d` (spherical shape). -/
theorem spherical_state_neg (env : Environment) (h dh d : ℝ) (hd : 0 < d) :
    spherical_state_at_dist env h dh (-d) =
      spherical_state_at_dist env h (-dh) d := by
  simp only [spherical_state_at_dist, abs_neg]
  rw [if_neg (by linarith), if_pos (le_of_lt hd)]

/-- C7 (amended).  For every environment, start altitude, launch angle and
distance `d ≥ 0`, curved-ray altitude queries satisfy
`cast_ray(h, a, false).h_at_dist(-d) = cast_ray(h, -a, false).h_at_dist(d)`;
the corresponding angle identity holds for every `d > 0` (at `d = 0` the
sign of the slope is not flipped, because `-0 ≥ 0`, so the two angles are
opposite rather than equal). -/
theorem c7_sign_flip :
    ∀ (env : Environment) (h a d : ℝ), 0 ≤ d →
      env.h_at_dist_curved h a (-d) = env.h_at_dist_curved h (-a) d ∧
      (0 < d →
        env.angle_at_dist_curved h a (-d) =
          env.angle_at_dist_curved h (-a) d) := by
  intro env h a d hd
  obtain ⟨shape, atm⟩ := env
  rcases eq_or_lt_of_le hd with hz | hpos
  · constructor
    · cases shape with
      | Flat =>
        show (flat_state_at_dist _ h (Real.tan a) (-d)).h =
          (flat_state_at_dist _ h (Real.tan (-a)) d).h
        rw [← hz, neg_zero, flat_state_zero, flat_state_zero]
      | Spherical r =>
        show (spherical_state_at_dist _ h _ (-d)).h =
          (spherical_state_at_dist _ h _ d).h
        rw [← hz, neg_zero, spherical_state_zero, spherical_state_zero]
    · intro hdpos
      rw [← hz] at hdpos
      exact absurd hdpos (lt_irrefl 0)
  · have htan : ∀ r : ℝ,
        (h + r) * Real.tan (-a) / r = -((h + r) * Real.tan a / r) := by
      intro r
      rw [Real.tan_neg]
      ring
    cases shape with
    | Flat =>
      constructor
      · show (flat_state_at_dist ⟨.Flat, atm⟩ h (Real.tan a) (-d)).h =
          (flat_state_at_dist ⟨.Flat, atm⟩ h (Real.tan (-a)) d).h
        rw [flat_state_neg _ _ _ _ hpos, Real.tan_neg]
      · intro _
        show RayState.get_angle
            (flat_state_at_dist ⟨.Flat, atm⟩ h (Real.tan a) (-d))
            ⟨.Flat, atm⟩ =
          RayState.get_angle
            (flat_state_at_dist ⟨.Flat, atm⟩ h (Real.tan (-a)) d)
            ⟨.Flat, atm⟩
        rw [flat_state_neg _ _ _ _ hpos, Real.tan_neg]
    | Spherical r =>
      constructor
      · show (spherical_state_at_dist ⟨.Spherical r, atm⟩ h
            ((h + r) * Real.tan a / r) (-d)).h =
          (spherical_state_at_dist ⟨.Spherical r, atm⟩ h
            ((h + r) * Real.tan (-a) / r) d).h
        rw [spherical_state_neg _ _ _ _ hpos, htan r]
      · intro _
        show RayState.get_angle
            (spherical_state_at_dist ⟨.Spherical r, atm⟩ h
              ((h + r) * Real.tan a / r) (-d)) ⟨.Spherical r, atm⟩ =
          RayState.get_angle
            (spherical_state_at_dist ⟨.Spherical r, atm⟩ h
              ((h + r) * Real.tan (-a) / r) d) ⟨.Spherical r, atm⟩
        rw [spherical_state_neg _ _ _ _ hpos, htan r]

/-- Witness for the amended C7 at a concrete flat environment. -/
theorem c7_sign_flip_witness :
    env_flat.h_at_dist_curved 0 1 (-5) = env_flat.h_at_dist_curved 0 (-1) 5 ∧
    env_flat.angle_at_dist_curved 0 1 (-5) =
      env_flat.angle_at_dist_curved 0 (-1) 5 :=
  ⟨(c7_sign_flip env_flat 0 1 5 (by norm_num)).1,
   (c7_sign_flip env_flat 0 1 5 (by norm_num)).2 (by norm_num)⟩

/-- Counterexample to C7 as stated: at `d = 0` the angle identity fails,
because `-0.0 >= 0.0` holds in the code, so the launch slope is not flipped:
the two angles are `1` and `-1`. -/
theorem c7_angle_zero_counterexample :
    env_flat.angle_at_dist_curved 0 1 (-(0 : ℝ)) ≠
      env_flat.angle_at_dist_curved 0 (-1) 0 := by
  have hpi1 : (1 : ℝ) < Real.pi / 2 := by
    have := Real.pi_gt_three
    linarith
  have hpi2 : -(Real.pi / 2) < (1 : ℝ) := by
    have := Real.pi_gt_three
    linarith
  have hL : env_flat.angle_at_dist_curved 0 1 (-(0 : ℝ)) = 1 := by
    show RayState.get_angle (flat_state_at_dist env_flat 0 (Real.tan 1)
      (-(0 : ℝ))) env_flat = 1
    rw [neg_zero, flat_state_zero]
    show Real.arctan (Real.tan 1) = 1
    exact Real.arctan_tan hpi2 hpi1
  have hR : env_flat.angle_at_dist_curved 0 (-1) 0 = -1 := by
    show RayState.get_angle (flat_state_at_dist env_flat 0 (Real.tan (-1))
      0) env_flat = -1
    rw [flat_state_zero]
    show Real.arctan (Real.tan (-1)) = -1
    rw [Real.tan_neg, Real.arctan_neg, Real.arctan_tan hpi2 hpi1]
  rw [hL, hR]
  norm_num

/-! ## C5: the launch-angle bisection of cast_ray_target -/

theorem bisect_loop_stable (F : ℝ → ℝ) (t : ℝ) :
    ∀ (n : ℕ) (b : ℝ × ℝ), ¬ ((1e-9 : ℝ) < b.2 - b.1) →
      bisect_loop F t n b = b
  | 0, _, _ => rfl
  | n + 1, b, h => by rw [bisect_loop, if_neg h]

theorem bisect_loop_add (F : ℝ → ℝ) (t : ℝ) :
    ∀ (m n : ℕ) (b : ℝ × ℝ),
      bisect_loop F t (m + n) b = bisect_loop F t n (bisect_loop F t m b) := by
  intro m
  induction m with
  | zero => intro n b; rw [Nat.zero_add]; rfl
  | succ m ih =>
    intro n b
    have hmn : m + 1 + n = (m + n) + 1 := by omega
    rw [hmn]
    by_cases hg : (1e-9 : ℝ) < b.2 - b.1
    · rw [bisect_loop, if_pos hg]
      by_cases hc : t < F (0.5 * (b.1 + b.2))
      · rw [if_pos hc, ih]
        congr 1
        rw [bisect_loop, if_pos hg, if_pos hc]
      · rw [if_neg hc, ih]
        congr 1
        rw [bisect_loop, if_pos hg, if_neg hc]
    · rw [bisect_loop, if_neg hg]
      have h1 : bisect_loop F t (m + 1) b = b := by
        rw [bisect_loop, if_neg hg]
      rw [h1, bisect_loop_stable F t n b hg]

theorem bisect_loop_width (F : ℝ → ℝ) (t : ℝ) :
    ∀ (n : ℕ) (b : ℝ × ℝ),
      (bisect_loop F t n b).2 - (bisect_loop F t n b).1 ≤
        max ((b.2 - b.1) / 2 ^ n) 1e-9 := by
  intro n
  induction n with
  | zero => intro b; simp [bisect_loop]
  | succ n ih =>
    intro b
    have heq : ((b.2 - b.1) / 2) / 2 ^ n = (b.2 - b.1) / 2 ^ (n + 1) := by
      rw [div_div, pow_succ, mul_comm]
    rw [bisect_loop]
    by_cases hg : (1e-9 : ℝ) < b.2 - b.1
    · rw [if_pos hg]
      by_cases hc : t < F (0.5 * (b.1 + b.2))
      · rw [if_pos hc]
        refine le_trans (ih _) (max_le_max (le_of_eq ?_) le_rfl)
        show (0.5 * (b.1 + b.2) - b.1) / 2 ^ n = _
        rw [← heq]
        congr 1
        ring
      · rw [if_neg hc]
        refine le_trans (ih _) (max_le_max (le_of_eq ?_) le_rfl)
        show (b.2 - 0.5 * (b.1 + b.2)) / 2 ^ n = _
        rw [← heq]
        congr 1
        ring
    · rw [if_neg hg]
      exact le_trans (not_lt.mp hg) (le_max_right _ _)

theorem bisect_loop_nested (F : ℝ → ℝ) (t : ℝ) :
    ∀ (n : ℕ) (b : ℝ × ℝ), b.1 ≤ b.2 →
      b.1 ≤ (bisect_loop F t n b).1 ∧ (bisect_loop F t n b).2 ≤ b.2 ∧
        (bisect_loop F t n b).1 ≤ (bisect_loop F t n b).2 := by
  intro n
  induction n with
  | zero => intro b hb; exact ⟨le_rfl, le_rfl, hb⟩
  | succ n ih =>
    intro b hb
    rw [bisect_loop]
    by_cases hg : (1e-9 : ℝ) < b.2 - b.1
    · rw [if_pos hg]
      by_cases hc : t < F (0.5 * (b.1 + b.2))
      · rw [if_pos hc]
        have hb' : (b.1, 0.5 * (b.1 + b.2)).1 ≤ (b.1, 0.5 * (b.1 + b.2)).2 := by
          show b.1 ≤ 0.5 * (b.1 + b.2)
          linarith
        obtain ⟨h1, h2, h3⟩ := ih _ hb'
        exact ⟨h1, le_trans h2 (by show 0.5 * (b.1 + b.2) ≤ b.2; linarith), h3⟩
      · rw [if_neg hc]
        have hb' : (0.5 * (b.1 + b.2), b.2).1 ≤ (0.5 * (b.1 + b.2), b.2).2 := by
          show 0.5 * (b.1 + b.2) ≤ b.2
          linarith
        obtain ⟨h1, h2, h3⟩ := ih _ hb'
        exact ⟨le_trans (by show b.1 ≤ 0.5 * (b.1 + b.2); linarith) h1, h2, h3⟩
    · rw [if_neg hg]
      exact ⟨le_rfl, le_rfl, hb⟩

theorem bisect_loop_bracket (F : ℝ → ℝ) (t : ℝ) :
    ∀ (n : ℕ) (b : ℝ × ℝ), F b.1 ≤ t → t ≤ F b.2 →
      F (bisect_loop F t n b).1 ≤ t ∧ t ≤ F (bisect_loop F t n b).2 := by
  intro n
  induction n with
  | zero => intro b h1 h2; exact ⟨h1, h2⟩
  | succ n ih =>
    intro b h1 h2
    rw [bisect_loop]
    by_cases hg : (1e-9 : ℝ) < b.2 - b.1
    · rw [if_pos hg]
      by_cases hc : t < F (0.5 * (b.1 + b.2))
      · rw [if_pos hc]
        exact ih _ h1 (le_of_lt hc)
      · rw [if_neg hc]
        exact ih _ (not_lt.mp hc) h2
    · rw [if_neg hg]
      exact ⟨h1, h2⟩

/-- C5.  The launch-angle bisection of `cast_ray_target` (curved case)
starts from the bracket `(-1.5, 1.5)`, halves the bracket until its width is
at most 1e-9 — which happens after exactly 32 iterations, so any further
iteration leaves the bracket unchanged — keeps at each midpoint the half
chosen by comparing the midpoint ray's altitude at the target distance with
`tgt_h`, and returns the final midpoint; provided the altitude response `F`
is continuous and monotone on the bracket and `tgt_h` is bracketed by the
endpoint responses, the altitude reached at the returned angle matches
`tgt_h` to within the altitude spread of the final (≤ 1e-9 wide) bracket.
`Environment.cast_ray_target_curved_angle` instantiates `F` with
`fun ang => cast_ray(start_h, ang, false).h_at_dist(tgt_dist)`. -/
theorem c5_bisection_convergence :
    ∀ (F : ℝ → ℝ) (tgt_h : ℝ),
      (∀ env : Environment, ∀ start_h tgt_dist : ℝ,
        env.cast_ray_target_curved_angle start_h tgt_h tgt_dist =
          cast_ray_target_angle
            (fun ang => env.h_at_dist_curved start_h ang tgt_dist) tgt_h) ∧
      (∀ n : ℕ, 32 ≤ n →
        bisect_loop F tgt_h n (-1.5, 1.5) =
          bisect_loop F tgt_h 32 (-1.5, 1.5)) ∧
      (bisect_loop F tgt_h 32 (-1.5, 1.5)).2 -
          (bisect_loop F tgt_h 32 (-1.5, 1.5)).1 ≤ 1e-9 ∧
      cast_ray_target_angle F tgt_h =
        0.5 * ((bisect_loop F tgt_h 32 (-1.5, 1.5)).1 +
          (bisect_loop F tgt_h 32 (-1.5, 1.5)).2) ∧
      (ContinuousOn F (Set.Icc (-1.5) 1.5) →
        MonotoneOn F (Set.Icc (-1.5) 1.5) →
        F (-1.5) ≤ tgt_h → tgt_h ≤ F 1.5 →
        |F (cast_ray_target_angle F tgt_h) - tgt_h| ≤
          F (bisect_loop F tgt_h 32 (-1.5, 1.5)).2 -
            F (bisect_loop F tgt_h 32 (-1.5, 1.5)).1) := by
  intro F tgt_h
  have hwidth : (bisect_loop F tgt_h 32 (-1.5, 1.5)).2 -
      (bisect_loop F tgt_h 32 (-1.5, 1.5)).1 ≤ 1e-9 := by
    refine le_trans (bisect_loop_width F tgt_h 32 (-1.5, 1.5)) ?_
    have : ((1.5 : ℝ) - -1.5) / 2 ^ 32 ≤ 1e-9 := by norm_num
    exact max_le this le_rfl
  refine ⟨fun env s d => rfl, ?_, hwidth, rfl, ?_⟩
  · intro n hn
    have hsplit : n = 32 + (n - 32) := by omega
    rw [hsplit, bisect_loop_add]
    exact bisect_loop_stable F tgt_h _ _ (not_lt.mpr hwidth)
  · intro _ hmono h1 h2
    obtain ⟨hn1, hn2, hn3⟩ :=
      bisect_loop_nested F tgt_h 32 (-1.5, 1.5) (by norm_num)
    obtain ⟨hb1, hb2⟩ := bisect_loop_bracket F tgt_h 32 (-1.5, 1.5) h1 h2
    have hmem1 : (bisect_loop F tgt_h 32 (-1.5, 1.5)).1 ∈
        Set.Icc (-1.5 : ℝ) 1.5 :=
      ⟨hn1, le_trans hn3 hn2⟩
    have hmem2 : (bisect_loop F tgt_h 32 (-1.5, 1.5)).2 ∈
        Set.Icc (-1.5 : ℝ) 1.5 :=
      ⟨le_trans hn1 hn3, hn2⟩
    have hmemc : cast_ray_target_angle F tgt_h ∈ Set.Icc (-1.5 : ℝ) 1.5 := by
      show 0.5 * ((bisect_loop F tgt_h 32 (-1.5, 1.5)).1 +
        (bisect_loop F tgt_h 32 (-1.5, 1.5)).2) ∈ Set.Icc (-1.5 : ℝ) 1.5
      constructor
      · have := hmem1.1
        have := hmem2.1
        linarith
      · have := hmem1.2
        have := hmem2.2
        linarith
    have hc1 : F (bisect_loop F tgt_h 32 (-1.5, 1.5)).1 ≤
        F (cast_ray_target_angle F tgt_h) := by
      apply hmono hmem1 hmemc
      show _ ≤ 0.5 * ((bisect_loop F tgt_h 32 (-1.5, 1.5)).1 +
        (bisect_loop F tgt_h 32 (-1.5, 1.5)).2)
      linarith
    have hc2 : F (cast_ray_target_angle F tgt_h) ≤
        F (bisect_loop F tgt_h 32 (-1.5, 1.5)).2 := by
      apply hmono hmemc hmem2
      show 0.5 * ((bisect_loop F tgt_h 32 (-1.5, 1.5)).1 +
        (bisect_loop F tgt_h 32 (-1.5, 1.5)).2) ≤ _
      linarith
    rw [abs_le]
    constructor
    · linarith
    · linarith

/-- Witness for C5 with the identity altitude response and target 0. -/
theorem c5_bisection_convergence_witness :
    |id (cast_ray_target_angle id 0) - 0| ≤
      id (bisect_loop id 0 32 (-1.5, 1.5)).2 -
        id (bisect_loop id 0 32 (-1.5, 1.5)).1 :=
  (c5_bisection_convergence id 0).2.2.2.2 continuousOn_id monotoneOn_id
    (by norm_num) (by norm_num)

/-! ## C3: gradient-only profiles with no fixed value fail -/

theorem has_fp_getD_false {α : Type} [LinearOrderedField α]
    (defs : List (IntermediateFunctionDef α)) (i : ℕ)
    (h : ∀ d ∈ defs, ∃ g, d = .Linear g none) :
    (defs.getD i dfltIFD).has_fixed_point = false := by
  rcases lt_or_le i defs.length with hi | hi
  · have hmem : defs.getD i dfltIFD ∈ defs := by
      rw [List.getD_eq_getElem _ _ hi]
      exact List.getElem_mem hi
    obtain ⟨g, hg⟩ := h _ hmem
    rw [hg]
    rfl
  · rw [List.getD_eq_default _ _ hi]
    rfl

theorem apply_fixed_value_none {α : Type} [LinearOrderedField α]
    (interval_ends : List α) (index : ℕ)
    (defs : List (IntermediateFunctionDef α)) :
    apply_fixed_value interval_ends none index defs = defs := by
  cases h : defs.getD index dfltIFD with
  | Linear g fp => rw [apply_fixed_value.eq_def, h]
  | Cubic p => rw [apply_fixed_value.eq_def, h]

theorem fill_aux_all_linear_none {α : Type} [LinearOrderedField α]
    (interval_ends : List α) :
    ∀ (fuel : ℕ) (defs : List (IntermediateFunctionDef α)) (index : ℕ),
      (∀ d ∈ defs, ∃ g, d = .Linear g none) →
      fill_fixed_point_aux interval_ends none fuel defs index =
        .error .NoFixedPoint := by
  intro fuel
  induction fuel with
  | zero => intro defs index _; rfl
  | succ n ih =>
    intro defs index h
    rw [fill_fixed_point_aux]
    simp only [apply_fixed_value_none, has_fp_getD_false _ _ h,
      Bool.and_false, Bool.not_false, Bool.and_self, if_true]
    by_cases hlen : index + 1 < defs.length
    · rw [if_pos hlen, ih defs (index + 1) h]
    · rw [if_neg hlen]

theorem fill_fixed_points_all_linear_none {α : Type} [LinearOrderedField α]
    (interval_ends : List α) (defs : List (IntermediateFunctionDef α))
    (hne : defs ≠ []) (h : ∀ d ∈ defs, ∃ g, d = .Linear g none) :
    fill_fixed_points interval_ends defs none = .error .NoFixedPoint := by
  rw [fill_fixed_points]
  obtain ⟨n, hn⟩ : ∃ n, defs.length = n + 1 := by
    cases defs with
    | nil => exact absurd rfl hne
    | cons d rest => exact ⟨rest.length, rfl⟩
  rw [hn, List.range_succ_eq_map, ffp_go, fill_fixed_point,
    fill_aux_all_linear_none interval_ends _ defs 0 h]

theorem gi_loop_all_linear {α : Type} [LinearOrderedField α] :
    ∀ (interval_ends : List α) (fdefs : List (FunctionDef α)),
      (∀ f ∈ fdefs, f.is_linear = true) →
      ∀ d ∈ (gi_loop interval_ends fdefs).2, ∃ g, d = .Linear g none
  | [], _, _ => by simp [gi_loop]
  | _ :: _, [], _ => by simp [gi_loop]
  | e :: ends, f :: rest, h => by
    intro d hd
    have hf := h f (List.mem_cons_self f rest)
    cases f with
    | Spline s => exact absurd hf (by simp [FunctionDef.is_linear])
    | Linear g =>
      simp only [gi_loop, FunctionDef.into_intermediate,
        List.cons_append, List.nil_append, List.mem_cons] at hd
      rcases hd with rfl | hd
      · exact ⟨g, rfl⟩
      · exact gi_loop_all_linear ends rest
          (fun f' hf' => h f' (List.mem_cons_of_mem _ hf')) d hd

theorem generate_all_linear {α : Type} [LinearOrderedField α]
    (interval_ends : List α) (fdefs : List (FunctionDef α))
    (h : ∀ f ∈ fdefs, f.is_linear = true) :
    ∀ d ∈ (generate_intermediate_function_defs interval_ends fdefs).2,
      ∃ g, d = .Linear g none := by
  cases fdefs with
  | nil => simp [generate_intermediate_function_defs]
  | cons f rest =>
    intro d hd
    have hf := h f (List.mem_cons_self f rest)
    cases f with
    | Spline s => exact absurd hf (by simp [FunctionDef.is_linear])
    | Linear g =>
      simp only [generate_intermediate_function_defs,
        FunctionDef.into_intermediate, List.cons_append, List.nil_append,
        List.mem_cons] at hd
      rcases hd with rfl | hd
      · exact ⟨g, rfl⟩
      · exact gi_loop_all_linear interval_ends rest
          (fun f' hf' => h f' (List.mem_cons_of_mem _ hf')) d hd

/-- C3.  A builder whose segments are all `Linear{gradient}` and on which
`with_fixed_value` was never called fails with `NoFixedPoint`: no interval
can be anchored to an absolute value, and the failure is reported instead of
producing a profile. -/
theorem c3_no_fixed_point {α : Type} [LinearOrderedField α]
    (b : VerticalProfileBuilder α) (hne : b.function_defs ≠ [])
    (hlin : ∀ f ∈ b.function_defs, f.is_linear = true)
    (hfv : b.fixed_value = none) :
    b.build = .error .NoFixedPoint := by
  have hall := generate_all_linear b.interval_ends b.function_defs hlin
  have hne2 :
      (generate_intermediate_function_defs b.interval_ends
        b.function_defs).2 ≠ [] := by
    obtain ⟨f, rest, hfr⟩ : ∃ f rest, b.function_defs = f :: rest := by
      cases hb : b.function_defs with
      | nil => exact absurd hb hne
      | cons f rest => exact ⟨f, rest, rfl⟩
    have hf : f.is_linear = true := by
      apply hlin
      rw [hfr]
      exact List.mem_cons_self f rest
    cases f with
    | Spline s => exact absurd hf (by simp [FunctionDef.is_linear])
    | Linear g =>
      rw [hfr]
      simp [generate_intermediate_function_defs,
        FunctionDef.into_intermediate]
  have herr :
      fill_fixed_points
        (generate_intermediate_function_defs b.interval_ends
          b.function_defs).1
        (generate_intermediate_function_defs b.interval_ends
          b.function_defs).2 b.fixed_value = .error .NoFixedPoint := by
    rw [hfv]
    exact fill_fixed_points_all_linear_none _ _ hne2 hall
  simp only [VerticalProfileBuilder.build]
  rw [herr]

/-- Concrete gradient-only builder over `ℚ` for the C3 witness (the
`should_fail_if_linear_without_fixed_value` test scenario). -/
def builder_c3 : VerticalProfileBuilder ℚ :=
  (VerticalProfileBuilder.new (.Linear 3.1)).with_next_function 0 (.Linear 3)

/-- Witness for C3 at the concrete gradient-only builder. -/
theorem c3_no_fixed_point_witness :
    builder_c3.build = .error .NoFixedPoint := by
  apply c3_no_fixed_point
  · simp [builder_c3, VerticalProfileBuilder.new,
      VerticalProfileBuilder.with_next_function]
  · intro f hf
    simp [builder_c3, VerticalProfileBuilder.new,
      VerticalProfileBuilder.with_next_function] at hf
    rcases hf with rfl | rfl <;> rfl
  · rfl

/-! ## C8: the length invariant functions = interval ends + 1 -/

theorem clip_polys_length {α : Type} [LinearOrderedField α]
    (start_alt end_alt : Option α) :
    ∀ l : List (α × α × CubicPoly α),
      (clip_polys start_alt end_alt l).2.length =
        (clip_polys start_alt end_alt l).1.length := by
  intro l
  induction l with
  | nil => rfl
  | cons p rest ih =>
    obtain ⟨start, end_, poly⟩ := p
    simp only [clip_polys]
    split
    · exact ih
    · split
      · exact ih
      · simp [ih]

theorem into_intermediate_length_some {α : Type} [LinearOrderedField α]
    (fd : FunctionDef α) (s : α) (end_alt : Option α) :
    (fd.into_intermediate (some s) end_alt).2.length =
      (fd.into_intermediate (some s) end_alt).1.length := by
  cases fd with
  | Linear g => rfl
  | Spline sp =>
    simp only [FunctionDef.into_intermediate]
    split_ifs <;> simp [clip_polys_length]

theorem into_intermediate_length_none {α : Type} [LinearOrderedField α]
    (fd : FunctionDef α) (end_alt : Option α) :
    (fd.into_intermediate none end_alt).2.length =
      (fd.into_intermediate none end_alt).1.length + 1 := by
  cases fd with
  | Linear g => rfl
  | Spline sp =>
    simp only [FunctionDef.into_intermediate]
    split_ifs <;> simp_all [clip_polys_length]

theorem gi_loop_length {α : Type} [LinearOrderedField α] :
    ∀ (interval_ends : List α) (fdefs : List (FunctionDef α)),
      (gi_loop interval_ends fdefs).2.length =
        (gi_loop interval_ends fdefs).1.length
  | [], _ => rfl
  | _ :: _, [] => rfl
  | e :: ends, f :: rest => by
    simp only [gi_loop, List.length_append, into_intermediate_length_some,
      gi_loop_length ends rest]

theorem generate_length {α : Type} [LinearOrderedField α]
    (interval_ends : List α) (f : FunctionDef α)
    (rest : List (FunctionDef α)) :
    (generate_intermediate_function_defs interval_ends
      (f :: rest)).2.length =
    (generate_intermediate_function_defs interval_ends
      (f :: rest)).1.length + 1 := by
  simp only [generate_intermediate_function_defs, List.length_append,
    into_intermediate_length_none, gi_loop_length]
  omega

theorem apply_fixed_value_length {α : Type} [LinearOrderedField α]
    (interval_ends : List α) (fv : Option (α × α)) (index : ℕ)
    (defs : List (IntermediateFunctionDef α)) :
    (apply_fixed_value interval_ends fv index defs).length = defs.length := by
  rw [apply_fixed_value.eq_def]
  split
  · split
    · simp [List.length_set]
    · rfl
  · rfl

theorem resolve_interval_length {α : Type} [LinearOrderedField α]
    (interval_ends : List α) (fv : Option (α × α)) (index : ℕ)
    (defs defs' : List (IntermediateFunctionDef α))
    (h : resolve_interval interval_ends fv index defs = .ok defs') :
    defs'.length = defs.length := by
  simp only [resolve_interval] at h
  repeat' split at h
  all_goals
    first
      | exact Except.noConfusion h
      | (injection h with h; rw [← h]; simp [List.length_set])
      | (injection h with h; rw [← h])

theorem fill_aux_length {α : Type} [LinearOrderedField α]
    (interval_ends : List α) (fv : Option (α × α)) :
    ∀ (fuel : ℕ) (defs : List (IntermediateFunctionDef α)) (index : ℕ)
      (defs' : List (IntermediateFunctionDef α)),
      fill_fixed_point_aux interval_ends fv fuel defs index = .ok defs' →
      defs'.length = defs.length := by
  intro fuel
  induction fuel with
  | zero => intro defs index defs' h; exact Except.noConfusion h
  | succ n ih =>
    intro defs index defs' h
    simp only [fill_fixed_point_aux] at h
    split at h
    · split at h
      · split at h
        · exact Except.noConfusion h
        · rename_i defs2 heq
          rw [resolve_interval_length _ _ _ _ _ h, ih _ _ _ heq,
            apply_fixed_value_length]
      · exact Except.noConfusion h
    · rw [resolve_interval_length _ _ _ _ _ h, apply_fixed_value_length]

theorem ffp_go_length {α : Type} [LinearOrderedField α]
    (interval_ends : List α) (fv : Option (α × α)) :
    ∀ (l : List ℕ) (defs defs' : List (IntermediateFunctionDef α)),
      ffp_go interval_ends fv l defs = .ok defs' →
      defs'.length = defs.length := by
  intro l
  induction l with
  | nil =>
    intro defs defs' h
    injection h with h
    rw [h]
  | cons i rest ih =>
    intro defs defs' h
    rw [ffp_go] at h
    split at h
    · exact Except.noConfusion h
    · rename_i d1 heq
      rw [fill_fixed_point] at heq
      rw [ih d1 defs' h, fill_aux_length _ _ _ _ _ _ heq]

/-- C8.  Every `VerticalProfile` returned as `Ok` by
`VerticalProfileBuilder::build` satisfies
`interval_functions.len() == altitude_interval_ends.len() + 1`: the lowering
of the first segment contributes one more function than interval ends, every
subsequent segment (linear or spline, with optional extrapolation pieces and
clipped cubic pieces) contributes equally many, and the anchoring pass
preserves both lists. -/
theorem c8_profile_lengths {α : Type} [LinearOrderedField α]
    (b : VerticalProfileBuilder α) (p : VerticalProfile α)
    (hlen : b.function_defs.length = b.interval_ends.length + 1)
    (hok : b.build = .ok p) :
    p.interval_functions.length = p.altitude_interval_ends.length + 1 := by
  obtain ⟨f, rest, hfr⟩ : ∃ f rest, b.function_defs = f :: rest := by
    cases hb : b.function_defs with
    | nil => rw [hb] at hlen; exact absurd hlen (by simp)
    | cons f rest => exact ⟨f, rest, rfl⟩
  simp only [VerticalProfileBuilder.build] at hok
  split at hok
  · exact Except.noConfusion hok
  · rename_i defs heq
    injection hok with hok
    rw [← hok]
    show (defs.map IntermediateFunctionDef.into_function).length = _
    rw [fill_fixed_points] at heq
    have h1 := ffp_go_length _ _ _ _ _ heq
    have h2 := generate_length b.interval_ends f rest
    rw [← hfr] at h2
    simp only [List.length_map, h1, h2]

deriving instance DecidableEq for Except


/-! ## Anchoring-step lemmas for concrete builds (C9, C4 witnesses) -/

theorem getD_set_self {α : Type} [LinearOrderedField α]
    (defs : List (IntermediateFunctionDef α)) (i : ℕ)
    (v : IntermediateFunctionDef α) (h : i < defs.length) :
    (defs.set i v).getD i dfltIFD = v := by
  rw [List.getD_eq_getElem?_getD, List.getElem?_set_self h]
  rfl

theorem getD_set_ne {α : Type} [LinearOrderedField α]
    (defs : List (IntermediateFunctionDef α)) (i j : ℕ)
    (v : IntermediateFunctionDef α) (h : i ≠ j) :
    (defs.set i v).getD j dfltIFD = defs.getD j dfltIFD := by
  rw [List.getD_eq_getElem?_getD, List.getElem?_set_ne h,
    ← List.getD_eq_getElem?_getD]

theorem apply_fixed_value_out {α : Type} [LinearOrderedField α]
    (interval_ends : List α) (x y : α) (index : ℕ)
    (defs : List (IntermediateFunctionDef α)) (g : α) (fp : Option (α × α))
    (hcur : defs.getD index dfltIFD = .Linear g fp)
    (hout : fv_in_interval interval_ends index x = false) :
    apply_fixed_value interval_ends (some (x, y)) index defs = defs := by
  rw [apply_fixed_value.eq_def, hcur]
  simp [hout]

theorem apply_fixed_value_in {α : Type} [LinearOrderedField α]
    (interval_ends : List α) (x y : α) (index : ℕ)
    (defs : List (IntermediateFunctionDef α)) (g : α) (fp : Option (α × α))
    (hcur : defs.getD index dfltIFD = .Linear g fp)
    (hin : fv_in_interval interval_ends index x = true) :
    apply_fixed_value interval_ends (some (x, y)) index defs =
      defs.set index (.Linear g (some (x, y))) := by
  rw [apply_fixed_value.eq_def, hcur]
  simp [hin]

/-- Resolution of an un-anchored linear interval whose lower neighbour is
determined: the neighbour's boundary value becomes the fixed point. -/
theorem resolve_step_below {α : Type} [LinearOrderedField α]
    (interval_ends : List α) (fv : Option (α × α)) (index : ℕ)
    (defs defs' : List (IntermediateFunctionDef α)) (g y : α)
    (h1 : ¬(index = 0))
    (hcur : defs.getD index dfltIFD = .Linear g none)
    (hget : (defs.getD (index - 1) dfltIFD).get
      (interval_ends.getD (index - 1) 0) = some y)
    (hset : defs.set index
      (.Linear g (some (interval_ends.getD (index - 1) 0, y))) = defs') :
    resolve_interval interval_ends fv index defs = .ok defs' := by
  simp only [resolve_interval, hcur, if_neg h1, hget, Option.map_some']
  rw [hset]

/-- Resolution of a linear interval already anchored (here: by the global
fixed value at index 0), with no determined neighbours. -/
theorem resolve_step_zero {α : Type} [LinearOrderedField α]
    (interval_ends : List α) (fv : Option (α × α))
    (defs : List (IntermediateFunctionDef α)) (g x y : α)
    (hcur : defs.getD 0 dfltIFD = .Linear g (some (x, y)))
    (hup : 1 < defs.length →
      (defs.getD 1 dfltIFD).get (interval_ends.getD 0 0) = none) :
    resolve_interval interval_ends fv 0 defs = .ok defs := by
  simp only [resolve_interval, hcur, if_pos rfl]
  by_cases hc : 0 + 1 < defs.length
  · rw [if_pos hc, hup (by omega)]
    simp
  · rw [if_neg hc]
    simp

/-- One `fill_fixed_point` call at an interval whose lower neighbour is
already anchored and whose own fixed point comes from that neighbour. -/
theorem fill_step_below {α : Type} [LinearOrderedField α]
    (interval_ends : List α) (fv : Option (α × α)) (index : ℕ)
    (defs defs' : List (IntermediateFunctionDef α)) (g y : α)
    (h1 : ¬(index = 0)) (hidx : index < defs.length)
    (hbfp : (defs.getD (index - 1) dfltIFD).has_fixed_point = true)
    (hnofv : apply_fixed_value interval_ends fv index defs = defs)
    (hcur : defs.getD index dfltIFD = .Linear g none)
    (hget : (defs.getD (index - 1) dfltIFD).get
      (interval_ends.getD (index - 1) 0) = some y)
    (hset : defs.set index
      (.Linear g (some (interval_ends.getD (index - 1) 0, y))) = defs') :
    fill_fixed_point interval_ends defs index fv = .ok defs' := by
  rw [fill_fixed_point]
  obtain ⟨m, hm⟩ : ∃ m, defs.length - index = m + 1 :=
    ⟨defs.length - index - 1, by omega⟩
  rw [hm]
  have hd : decide (index ≠ 0) = true := decide_eq_true h1
  simp only [fill_fixed_point_aux, hnofv, hbfp, hd, Bool.and_true,
    Bool.not_true, Bool.false_and, Bool.false_eq_true, if_false]
  exact resolve_step_below interval_ends fv index defs defs' g y h1 hcur
    hget hset

/-- One `fill_fixed_point` call at index 0 when the global fixed value lies
in the first (linear) interval: the fixed value is installed as the anchor. -/
theorem fill_step_zero_fv {α : Type} [LinearOrderedField α]
    (interval_ends : List α)
    (defs defs' : List (IntermediateFunctionDef α)) (g x y : α)
    (hlen : 0 < defs.length)
    (hcur : defs.getD 0 dfltIFD = .Linear g none)
    (hin : fv_in_interval interval_ends 0 x = true)
    (hup : 1 < defs.length →
      (defs.getD 1 dfltIFD).get (interval_ends.getD 0 0) = none)
    (hset : defs.set 0 (.Linear g (some (x, y))) = defs') :
    fill_fixed_point interval_ends defs 0 (some (x, y)) = .ok defs' := by
  have happ : apply_fixed_value interval_ends (some (x, y)) 0 defs = defs' := by
    rw [apply_fixed_value_in interval_ends x y 0 defs g none hcur hin, hset]
  have hfp' : defs'.getD 0 dfltIFD = .Linear g (some (x, y)) := by
    rw [← hset]
    exact getD_set_self defs 0 _ hlen
  have hlen' : defs'.length = defs.length := by
    rw [← hset, List.length_set]
  have hup' : 1 < defs'.length →
      (defs'.getD 1 dfltIFD).get (interval_ends.getD 0 0) = none := by
    intro h
    rw [← hset, getD_set_ne defs 0 1 _ (by omega)]
    exact hup (by rw [← hlen']; exact h)
  rw [fill_fixed_point]
  obtain ⟨m, hm⟩ : ∃ m, defs.length - 0 = m + 1 := ⟨defs.length - 1, by omega⟩
  rw [hm]
  have hhas : (defs'.getD 0 dfltIFD).has_fixed_point = true := by
    rw [hfp']
    rfl
  simp only [fill_fixed_point_aux, happ, hhas, Bool.not_true, Bool.and_false,
    Bool.false_eq_true, if_false]
  exact resolve_step_zero interval_ends _ defs' g x y hfp' hup'

/-! ## C9: the built-in 1976 US Standard Atmosphere -/

theorem fv_in_interval_false_of {α : Type} [LinearOrderedField α]
    (interval_ends : List α) (index : ℕ) (x : α) (h1 : index ≠ 0)
    (h2 : ¬(interval_ends.getD (index - 1) 0 ≤ x)) :
    fv_in_interval interval_ends index x = false := by
  rw [fv_in_interval, decide_eq_false h1, decide_eq_false h2, Bool.false_or,
    Bool.false_and]

theorem fv_in_interval_true_of {α : Type} [LinearOrderedField α]
    (interval_ends : List α) (index : ℕ) (x : α)
    (h1 : index = 0 ∨ interval_ends.getD (index - 1) 0 ≤ x)
    (h2 : interval_ends.length ≤ index ∨ x ≤ interval_ends.getD index 0) :
    fv_in_interval interval_ends index x = true := by
  simp only [fv_in_interval, Bool.and_eq_true, Bool.or_eq_true,
    decide_eq_true_eq]
  exact ⟨h1, h2⟩

noncomputable def us76_ends : List ℝ :=
  [11e3, 20e3, 32e3, 47e3, 51e3, 71e3, 84.852e3]

noncomputable def us76_d0 : List (IntermediateFunctionDef ℝ) :=
  [.Linear (-0.0065) none, .Linear 0 none, .Linear 0.001 none,
   .Linear 0.0028 none, .Linear 0 none, .Linear (-0.0028) none,
   .Linear (-0.002) none, .Linear 0 none]

noncomputable def us76_d1 : List (IntermediateFunctionDef ℝ) :=
  [.Linear (-0.0065) (some (0, 288)), .Linear 0 none, .Linear 0.001 none,
   .Linear 0.0028 none, .Linear 0 none, .Linear (-0.0028) none,
   .Linear (-0.002) none, .Linear 0 none]

noncomputable def us76_d2 : List (IntermediateFunctionDef ℝ) :=
  [.Linear (-0.0065) (some (0, 288)), .Linear 0 (some (11e3, 216.5)),
   .Linear 0.001 none, .Linear 0.0028 none, .Linear 0 none,
   .Linear (-0.0028) none, .Linear (-0.002) none, .Linear 0 none]

noncomputable def us76_d3 : List (IntermediateFunctionDef ℝ) :=
  [.Linear (-0.0065) (some (0, 288)), .Linear 0 (some (11e3, 216.5)),
   .Linear 0.001 (some (20e3, 216.5)), .Linear 0.0028 none, .Linear 0 none,
   .Linear (-0.0028) none, .Linear (-0.002) none, .Linear 0 none]

noncomputable def us76_d4 : List (IntermediateFunctionDef ℝ) :=
  [.Linear (-0.0065) (some (0, 288)), .Linear 0 (some (11e3, 216.5)),
   .Linear 0.001 (some (20e3, 216.5)), .Linear 0.0028 (some (32e3, 228.5)),
   .Linear 0 none, .Linear (-0.0028) none, .Linear (-0.002) none,
   .Linear 0 none]

noncomputable def us76_d5 : List (IntermediateFunctionDef ℝ) :=
  [.Linear (-0.0065) (some (0, 288)), .Linear 0 (some (11e3, 216.5)),
   .Linear 0.001 (some (20e3, 216.5)), .Linear 0.0028 (some (32e3, 228.5)),
   .Linear 0 (some (47e3, 270.5)), .Linear (-0.0028) none,
   .Linear (-0.002) none, .Linear 0 none]

noncomputable def us76_d6 : List (IntermediateFunctionDef ℝ) :=
  [.Linear (-0.0065) (some (0, 288)), .Linear 0 (some (11e3, 216.5)),
   .Linear 0.001 (some (20e3, 216.5)), .Linear 0.0028 (some (32e3, 228.5)),
   .Linear 0 (some (47e3, 270.5)), .Linear (-0.0028) (some (51e3, 270.5)),
   .Linear (-0.002) none, .Linear 0 none]

noncomputable def us76_d7 : List (IntermediateFunctionDef ℝ) :=
  [.Linear (-0.0065) (some (0, 288)), .Linear 0 (some (11e3, 216.5)),
   .Linear 0.001 (some (20e3, 216.5)), .Linear 0.0028 (some (32e3, 228.5)),
   .Linear 0 (some (47e3, 270.5)), .Linear (-0.0028) (some (51e3, 270.5)),
   .Linear (-0.002) (some (71e3, 214.5)), .Linear 0 none]

noncomputable def us76_d8 : List (IntermediateFunctionDef ℝ) :=
  [.Linear (-0.0065) (some (0, 288)), .Linear 0 (some (11e3, 216.5)),
   .Linear 0.001 (some (20e3, 216.5)), .Linear 0.0028 (some (32e3, 228.5)),
   .Linear 0 (some (47e3, 270.5)), .Linear (-0.0028) (some (51e3, 270.5)),
   .Linear (-0.002) (some (71e3, 214.5)),
   .Linear 0 (some (84.852e3, 186.796))]

/-- The builder that `Atmosphere::from_def` assembles for the us_76
temperature profile. -/
noncomputable def us76_temp_builder : VerticalProfileBuilder ℝ :=
  ⟨[11e3, 20e3, 32e3, 47e3, 51e3, 71e3, 84.852e3],
   [.Linear (-0.0065), .Linear 0, .Linear 0.001, .Linear 0.0028, .Linear 0,
    .Linear (-0.0028), .Linear (-0.002), .Linear 0],
   some (0, 288)⟩

noncomputable def us76_temp_profile : VerticalProfile ℝ :=
  ⟨us76_ends, us76_d8.map IntermediateFunctionDef.into_function⟩

theorem us76_temp_build_ok :
    us76_temp_builder.build = .ok us76_temp_profile := by
  have hs0 : fill_fixed_point us76_ends us76_d0 0 (some (0, 288)) =
      .ok us76_d1 :=
    fill_step_zero_fv us76_ends us76_d0 us76_d1 (-0.0065) 0 288
      (by show (0 : ℕ) < 8; norm_num) rfl
      (fv_in_interval_true_of us76_ends 0 0 (Or.inl rfl)
        (Or.inr (by show (0 : ℝ) ≤ 11e3; norm_num)))
      (fun _ => rfl) rfl
  have hs1 : fill_fixed_point us76_ends us76_d1 1 (some (0, 288)) =
      .ok us76_d2 :=
    fill_step_below us76_ends (some (0, 288)) 1 us76_d1 us76_d2 0 216.5
      (by norm_num) (by show (1 : ℕ) < 8; norm_num) rfl
      (apply_fixed_value_out us76_ends 0 288 1 us76_d1 0 none rfl
        (fv_in_interval_false_of us76_ends 1 0 (by norm_num)
          (by show ¬((11e3 : ℝ) ≤ 0); norm_num)))
      rfl
      (by show (IntermediateFunctionDef.Linear (-0.0065 : ℝ)
          (some (0, 288))).get 11e3 = some 216.5
          norm_num [IntermediateFunctionDef.get])
      rfl
  have hs2 : fill_fixed_point us76_ends us76_d2 2 (some (0, 288)) =
      .ok us76_d3 :=
    fill_step_below us76_ends (some (0, 288)) 2 us76_d2 us76_d3 0.001 216.5
      (by norm_num) (by show (2 : ℕ) < 8; norm_num) rfl
      (apply_fixed_value_out us76_ends 0 288 2 us76_d2 0.001 none rfl
        (fv_in_interval_false_of us76_ends 2 0 (by norm_num)
          (by show ¬((20e3 : ℝ) ≤ 0); norm_num)))
      rfl
      (by show (IntermediateFunctionDef.Linear (0 : ℝ)
          (some (11e3, 216.5))).get 20e3 = some 216.5
          norm_num [IntermediateFunctionDef.get])
      rfl
  have hs3 : fill_fixed_point us76_ends us76_d3 3 (some (0, 288)) =
      .ok us76_d4 :=
    fill_step_below us76_ends (some (0, 288)) 3 us76_d3 us76_d4 0.0028 228.5
      (by norm_num) (by show (3 : ℕ) < 8; norm_num) rfl
      (apply_fixed_value_out us76_ends 0 288 3 us76_d3 0.0028 none rfl
        (fv_in_interval_false_of us76_ends 3 0 (by norm_num)
          (by show ¬((32e3 : ℝ) ≤ 0); norm_num)))
      rfl
      (by show (IntermediateFunctionDef.Linear (0.001 : ℝ)
          (some (20e3, 216.5))).get 32e3 = some 228.5
          norm_num [IntermediateFunctionDef.get])
      rfl
  have hs4 : fill_fixed_point us76_ends us76_d4 4 (some (0, 288)) =
      .ok us76_d5 :=
    fill_step_below us76_ends (some (0, 288)) 4 us76_d4 us76_d5 0 270.5
      (by norm_num) (by show (4 : ℕ) < 8; norm_num) rfl
      (apply_fixed_value_out us76_ends 0 288 4 us76_d4 0 none rfl
        (fv_in_interval_false_of us76_ends 4 0 (by norm_num)
          (by show ¬((47e3 : ℝ) ≤ 0); norm_num)))
      rfl
      (by show (IntermediateFunctionDef.Linear (0.0028 : ℝ)
          (some (32e3, 228.5))).get 47e3 = some 270.5
          norm_num [IntermediateFunctionDef.get])
      rfl
  have hs5 : fill_fixed_point us76_ends us76_d5 5 (some (0, 288)) =
      .ok us76_d6 :=
    fill_step_below us76_ends (some (0, 288)) 5 us76_d5 us76_d6 (-0.0028)
      270.5
      (by norm_num) (by show (5 : ℕ) < 8; norm_num) rfl
      (apply_fixed_value_out us76_ends 0 288 5 us76_d5 (-0.0028) none rfl
        (fv_in_interval_false_of us76_ends 5 0 (by norm_num)
          (by show ¬((51e3 : ℝ) ≤ 0); norm_num)))
      rfl
      (by show (IntermediateFunctionDef.Linear (0 : ℝ)
          (some (47e3, 270.5))).get 51e3 = some 270.5
          norm_num [IntermediateFunctionDef.get])
      rfl
  have hs6 : fill_fixed_point us76_ends us76_d6 6 (some (0, 288)) =
      .ok us76_d7 :=
    fill_step_below us76_ends (some (0, 288)) 6 us76_d6 us76_d7 (-0.002)
      214.5
      (by norm_num) (by show (6 : ℕ) < 8; norm_num) rfl
      (apply_fixed_value_out us76_ends 0 288 6 us76_d6 (-0.002) none rfl
        (fv_in_interval_false_of us76_ends 6 0 (by norm_num)
          (by show ¬((71e3 : ℝ) ≤ 0); norm_num)))
      rfl
      (by show (IntermediateFunctionDef.Linear (-0.0028 : ℝ)
          (some (51e3, 270.5))).get 71e3 = some 214.5
          norm_num [IntermediateFunctionDef.get])
      rfl
  have hs7 : fill_fixed_point us76_ends us76_d7 7 (some (0, 288)) =
      .ok us76_d8 :=
    fill_step_below us76_ends (some (0, 288)) 7 us76_d7 us76_d8 0 186.796
      (by norm_num) (by show (7 : ℕ) < 8; norm_num) rfl
      (apply_fixed_value_out us76_ends 0 288 7 us76_d7 0 none rfl
        (fv_in_interval_false_of us76_ends 7 0 (by norm_num)
          (by show ¬((84.852e3 : ℝ) ≤ 0); norm_num)))
      rfl
      (by show (IntermediateFunctionDef.Linear (-0.002 : ℝ)
          (some (71e3, 214.5))).get 84.852e3 = some 186.796
          norm_num [IntermediateFunctionDef.get])
      rfl
  have hfill : fill_fixed_points us76_ends us76_d0 (some (0, 288)) =
      .ok us76_d8 := by
    rw [fill_fixed_points, show us76_d0.length = 8 from rfl,
      show List.range 8 = [0, 1, 2, 3, 4, 5, 6, 7] from by decide]
    simp only [ffp_go, hs0, hs1, hs2, hs3, hs4, hs5, hs6, hs7]
  have hgen : generate_intermediate_function_defs
      us76_temp_builder.interval_ends us76_temp_builder.function_defs =
      (us76_ends, us76_d0) := rfl
  simp only [VerticalProfileBuilder.build, hgen]
  rw [show us76_temp_builder.fixed_value = some ((0 : ℝ), 288) from rfl,
    hfill]
  rfl

noncomputable def us76_hum_builder : VerticalProfileBuilder ℝ :=
  ⟨[], [.Linear 0], some (0, 0)⟩

noncomputable def us76_hum_profile : VerticalProfile ℝ :=
  ⟨[], [IntermediateFunctionDef.into_function (.Linear 0 (some (0, 0)))]⟩

theorem us76_hum_build_ok :
    us76_hum_builder.build = .ok us76_hum_profile := by
  have hs0 : fill_fixed_point ([] : List ℝ) [.Linear 0 none] 0
      (some (0, 0)) = .ok [.Linear 0 (some (0, 0))] :=
    fill_step_zero_fv [] [.Linear 0 none] [.Linear 0 (some (0, 0))] 0 0 0
      (by norm_num) rfl
      (fv_in_interval_true_of [] 0 0 (Or.inl rfl) (Or.inl (by norm_num)))
      (fun h => absurd h (by norm_num)) rfl
  have hfill : fill_fixed_points ([] : List ℝ) [.Linear 0 none]
      (some (0, 0)) = .ok [.Linear 0 (some (0, 0))] := by
    rw [fill_fixed_points,
      show ([(IntermediateFunctionDef.Linear (0 : ℝ) none)].length) = 1
        from rfl,
      show List.range 1 = [0] from by decide]
    simp only [ffp_go, hs0]
  have hgen : generate_intermediate_function_defs
      us76_hum_builder.interval_ends us76_hum_builder.function_defs =
      ([], [.Linear 0 none]) := rfl
  simp only [VerticalProfileBuilder.build, hgen]
  rw [show us76_hum_builder.fixed_value = some ((0 : ℝ), 0) from rfl, hfill]
  rfl

/-- The atmosphere that `Atmosphere::from_def` produces for us_76. -/
noncomputable def us76_atm : Atmosphere :=
  ⟨PressureProfile.from_temperature_profile us76_temp_profile 101325 0,
   us76_temp_profile, us76_hum_profile⟩

theorem us76_interval_index_zero : interval_index us76_ends 0 = 0 := by
  apply interval_index_below
  intro e he
  simp only [us76_ends, List.mem_cons, List.not_mem_nil, or_false] at he
  rcases he with rfl | rfl | rfl | rfl | rfl | rfl | rfl <;> norm_num

/-- C9.  The built-in 1976 US Standard Atmosphere builds successfully and
satisfies `temperature(0.0) == 288.0` and `pressure(0.0) == 101325.0`. -/
theorem c9_us76_reference_values :
    ∃ atm : Atmosphere,
      Atmosphere.from_def AtmosphereDef.us_76 = .ok atm ∧
      atm.temperature 0 = 288 ∧ atm.pressure 0 = 101325 := by
  refine ⟨us76_atm, ?_, ?_, ?_⟩
  · have e1 : Atmosphere.from_def AtmosphereDef.us_76 =
        (match us76_temp_builder.build with
         | .error e => .error e
         | .ok temperature =>
           match us76_hum_builder.build with
           | .error e => .error e
           | .ok humidity =>
             .ok ⟨PressureProfile.from_temperature_profile temperature
                    101325 0, temperature, humidity⟩) := rfl
    rw [e1]
    simp only [us76_temp_build_ok, us76_hum_build_ok]
    rfl
  · show us76_temp_profile.eval 0 = 288
    rw [VerticalProfile.eval]
    rw [show us76_temp_profile.altitude_interval_ends = us76_ends from rfl,
      us76_interval_index_zero]
    show (IntermediateFunctionDef.into_function
      (.Linear (-0.0065 : ℝ) (some (0, 288)))).eval 0 = 288
    norm_num [IntermediateFunctionDef.into_function, VerticalFunction.eval]
  · show (PressureProfile.from_temperature_profile us76_temp_profile
      101325 0).eval 0 = 101325
    rw [PressureProfile.eval, PressureProfile.from_temperature_profile]
    rw [show us76_temp_profile.altitude_interval_ends = us76_ends from rfl,
      us76_interval_index_zero]
    have hlen : us76_temp_profile.interval_functions.length = 8 := rfl
    rw [hlen, getD_range_map 8 0 _ _ (by norm_num)]
    rw [pressure_fun_at, if_pos (Nat.le_refl 0), Nat.sub_self, pfun_below]
    exact from_temperature_function_anchor _ _ _

/-- Witness for C8 at the us_76 temperature builder, whose build succeeds. -/
theorem c8_profile_lengths_witness :
    us76_temp_profile.interval_functions.length =
      us76_temp_profile.altitude_interval_ends.length + 1 :=
  c8_profile_lengths us76_temp_builder us76_temp_profile rfl
    us76_temp_build_ok

/-! ## C4: conflict detection machinery -/

/-- A determined interval yields a boundary value. -/
theorem get_of_anchored {α : Type} [LinearOrderedField α]
    (d : IntermediateFunctionDef α) (x : α)
    (h : d.has_fixed_point = true) : ∃ y, d.get x = some y := by
  cases d with
  | Linear g fp =>
    cases fp with
    | none => exact absurd h (by simp [IntermediateFunctionDef.has_fixed_point])
    | some pt =>
      obtain ⟨x0, y0⟩ := pt
      exact ⟨y0 + (x - x0) * g, rfl⟩
  | Cubic poly => exact ⟨poly.eval x, rfl⟩

theorem apply_fixed_value_getD_ne {α : Type} [LinearOrderedField α]
    (interval_ends : List α) (fv : Option (α × α)) (index k : ℕ)
    (defs : List (IntermediateFunctionDef α)) (h : index ≠ k) :
    (apply_fixed_value interval_ends fv index defs).getD k dfltIFD =
      defs.getD k dfltIFD := by
  rw [apply_fixed_value.eq_def]
  split
  · split
    · exact getD_set_ne defs index k _ h
    · rfl
  · rfl

theorem resolve_frame {α : Type} [LinearOrderedField α]
    (interval_ends : List α) (fv : Option (α × α)) (index k : ℕ)
    (defs defs' : List (IntermediateFunctionDef α)) (hk : index ≠ k)
    (h : resolve_interval interval_ends fv index defs = .ok defs') :
    defs'.getD k dfltIFD = defs.getD k dfltIFD := by
  simp only [resolve_interval] at h
  repeat' split at h
  all_goals
    first
      | exact Except.noConfusion h
      | (injection h with h; rw [← h]; exact getD_set_ne defs index k _ hk)
      | (injection h with h; rw [← h])

/-- A successful `resolve_interval` on an already-anchored linear interval
mutates nothing. -/
theorem resolve_keeps {α : Type} [LinearOrderedField α]
    (interval_ends : List α) (fv : Option (α × α)) (index : ℕ)
    (defs defs' : List (IntermediateFunctionDef α)) (g : α) (pt : α × α)
    (hm : defs.getD index dfltIFD = .Linear g (some pt))
    (h : resolve_interval interval_ends fv index defs = .ok defs') :
    defs' = defs := by
  simp only [resolve_interval, hm] at h
  repeat' split at h
  all_goals
    first
      | exact Except.noConfusion h
      | (injection h with h; exact h.symm)

/-- A successful `resolve_interval` on a cubic interval mutates nothing. -/
theorem resolve_keeps_cubic {α : Type} [LinearOrderedField α]
    (interval_ends : List α) (fv : Option (α × α)) (index : ℕ)
    (defs defs' : List (IntermediateFunctionDef α)) (poly : CubicPoly α)
    (hm : defs.getD index dfltIFD = .Cubic poly)
    (h : resolve_interval interval_ends fv index defs = .ok defs') :
    defs' = defs := by
  simp only [resolve_interval, hm] at h
  repeat' split at h
  all_goals
    first
      | exact Except.noConfusion h
      | (injection h with h; exact h.symm)

/-- A successful `resolve_interval` leaves the interval anchored. -/
theorem resolve_anchored {α : Type} [LinearOrderedField α]
    (interval_ends : List α) (fv : Option (α × α)) (index : ℕ)
    (defs defs' : List (IntermediateFunctionDef α))
    (hidx : index < defs.length)
    (h : resolve_interval interval_ends fv index defs = .ok defs') :
    (defs'.getD index dfltIFD).has_fixed_point = true := by
  cases hm : defs.getD index dfltIFD with
  | Linear g fp =>
    cases fp with
    | some pt =>
      rw [resolve_keeps interval_ends fv index defs defs' g pt hm h, hm]
      rfl
    | none =>
      simp only [resolve_interval, hm] at h
      repeat' split at h
      all_goals
        first
          | exact Except.noConfusion h
          | (injection h with h;
             rw [← h, getD_set_self defs index _ hidx]; rfl)
  | Cubic poly =>
    rw [resolve_keeps_cubic interval_ends fv index defs defs' poly hm h, hm]
    rfl

/-- When the interval below is already anchored, `fill_fixed_point_aux`
skips the recursive search and goes straight to resolution. -/
theorem aux_reduce_below {α : Type} [LinearOrderedField α]
    (interval_ends : List α) (fv : Option (α × α)) (fuel index : ℕ)
    (defs : List (IntermediateFunctionDef α)) (h1 : index ≠ 0)
    (hbfp : (defs.getD (index - 1) dfltIFD).has_fixed_point = true) :
    fill_fixed_point_aux interval_ends fv (fuel + 1) defs index =
      resolve_interval interval_ends fv index
        (apply_fixed_value interval_ends fv index defs) := by
  have hd : decide (index ≠ 0) = true := decide_eq_true h1
  simp only [fill_fixed_point_aux, hbfp, hd, Bool.and_true, Bool.not_true,
    Bool.false_and, Bool.false_eq_true, if_false]

/-- When the interval itself is anchored after the fixed-value pass,
`fill_fixed_point_aux` goes straight to resolution. -/
theorem aux_reduce_has {α : Type} [LinearOrderedField α]
    (interval_ends : List α) (fv : Option (α × α)) (fuel index : ℕ)
    (defs : List (IntermediateFunctionDef α))
    (hhas : ((apply_fixed_value interval_ends fv index defs).getD index
      dfltIFD).has_fixed_point = true) :
    fill_fixed_point_aux interval_ends fv (fuel + 1) defs index =
      resolve_interval interval_ends fv index
        (apply_fixed_value interval_ends fv index defs) := by
  simp only [fill_fixed_point_aux, hhas, Bool.not_true, Bool.and_false,
    Bool.false_eq_true, if_false]

/-- A successful `fill_fixed_point_aux` leaves untouched every interval
strictly below the processed index. -/
theorem aux_frame {α : Type} [LinearOrderedField α]
    (interval_ends : List α) (fv : Option (α × α)) :
    ∀ (fuel : ℕ) (defs : List (IntermediateFunctionDef α)) (index : ℕ)
      (defs' : List (IntermediateFunctionDef α)),
      fill_fixed_point_aux interval_ends fv fuel defs index = .ok defs' →
      ∀ k, k < index → defs'.getD k dfltIFD = defs.getD k dfltIFD := by
  intro fuel
  induction fuel with
  | zero => intro defs index defs' h; exact Except.noConfusion h
  | succ n ih =>
    intro defs index defs' h k hk
    simp only [fill_fixed_point_aux] at h
    split at h
    · split at h
      · split at h
        · exact Except.noConfusion h
        · rename_i defs2 heq
          rw [resolve_frame _ _ _ _ _ _ (by omega) h,
            ih _ _ _ heq k (by omega),
            apply_fixed_value_getD_ne _ _ _ _ _ (by omega)]
      · exact Except.noConfusion h
    · rw [resolve_frame _ _ _ _ _ _ (by omega) h,
        apply_fixed_value_getD_ne _ _ _ _ _ (by omega)]

/-- A successful `fill_fixed_point_aux` leaves the processed interval
anchored. -/
theorem aux_anchored {α : Type} [LinearOrderedField α]
    (interval_ends : List α) (fv : Option (α × α))
    (fuel : ℕ) (defs : List (IntermediateFunctionDef α)) (index : ℕ)
    (defs' : List (IntermediateFunctionDef α))
    (hidx : index < defs.length)
    (h : fill_fixed_point_aux interval_ends fv fuel defs index = .ok defs') :
    (defs'.getD index dfltIFD).has_fixed_point = true := by
  cases fuel with
  | zero => exact Except.noConfusion h
  | succ n =>
    simp only [fill_fixed_point_aux] at h
    split at h
    · split at h
      · split at h
        · exact Except.noConfusion h
        · rename_i defs2 heq
          have hl2 : defs2.length = defs.length := by
            rw [fill_aux_length _ _ _ _ _ _ heq, apply_fixed_value_length]
          exact resolve_anchored _ _ _ _ _ (by omega) h
      · exact Except.noConfusion h
    · have hl1 : (apply_fixed_value interval_ends fv index defs).length =
          defs.length := apply_fixed_value_length _ _ _ _
      exact resolve_anchored _ _ _ _ _ (by omega) h

/-- Passing `resolve_interval` bounds the discrepancy between a determined
lower-neighbour boundary value and the resolved interval's value there. -/
theorem resolve_consistent {α : Type} [LinearOrderedField α]
    (interval_ends : List α) (fv : Option (α × α)) (j : ℕ)
    (defs defs' : List (IntermediateFunctionDef α)) (y1 : α)
    (hj : ¬(j = 0)) (hidx : j < defs.length)
    (hg1 : (defs.getD (j - 1) dfltIFD).get
      (interval_ends.getD (j - 1) 0) = some y1)
    (hok : resolve_interval interval_ends fv j defs = .ok defs') :
    ∀ y2, (defs'.getD j dfltIFD).get (interval_ends.getD (j - 1) 0) =
      some y2 → |y2 - y1| ≤ tolerance α := by
  intro y2 hg2
  cases hm : defs.getD j dfltIFD with
  | Linear g fp =>
    cases fp with
    | some pt =>
      obtain ⟨x2, y2'⟩ := pt
      have hkeep := resolve_keeps _ _ _ _ _ _ _ hm hok
      simp only [resolve_interval, hm, if_neg hj, hg1, Option.map_some']
        at hok
      by_cases hc1 : tolerance α <
          |y2' - y1 - g * (x2 - interval_ends.getD (j - 1) 0)|
      · rw [if_pos hc1] at hok
        simp at hok
      · rw [hkeep, hm] at hg2
        simp only [IntermediateFunctionDef.get] at hg2
        injection hg2 with hg2
        rw [← hg2, show y2' + (interval_ends.getD (j - 1) 0 - x2) * g - y1 =
          y2' - y1 - g * (x2 - interval_ends.getD (j - 1) 0) from by ring]
        exact not_lt.mp hc1
    | none =>
      simp only [resolve_interval, hm, if_neg hj, hg1, Option.map_some']
        at hok
      injection hok with hok
      rw [← hok, getD_set_self defs j _ hidx] at hg2
      simp only [IntermediateFunctionDef.get] at hg2
      injection hg2 with hg2
      rw [← hg2, show y1 + (interval_ends.getD (j - 1) 0 -
        interval_ends.getD (j - 1) 0) * g - y1 = 0 from by ring, abs_zero,
        tolerance]
      positivity
  | Cubic poly =>
    have hkeep := resolve_keeps_cubic _ _ _ _ _ _ hm hok
    rw [hkeep, hm] at hg2
    simp only [IntermediateFunctionDef.get] at hg2
    injection hg2 with hg2
    simp only [resolve_interval, hm, if_neg hj, hg1, Option.map_some']
      at hok
    by_cases hc1 : tolerance α <
        |y1 - poly.eval (interval_ends.getD (j - 1) 0)|
    · rw [if_pos hc1] at hok
      repeat' split at hok
      all_goals
        first
          | exact Except.noConfusion hok
          | simp_all
    · rw [← hg2, abs_sub_comm]
      exact not_lt.mp hc1

/-- One anchored-below `fill_fixed_point` call establishes boundary
consistency (within the 1e-4 tolerance) with its lower neighbour. -/
theorem fill_call_consistent {α : Type} [LinearOrderedField α]
    (interval_ends : List α) (fv : Option (α × α)) (fuel j : ℕ)
    (defs defs' : List (IntermediateFunctionDef α))
    (hj : ¬(j = 0)) (hidx : j < defs.length)
    (hbfp : (defs.getD (j - 1) dfltIFD).has_fixed_point = true)
    (hok : fill_fixed_point_aux interval_ends fv (fuel + 1) defs j =
      .ok defs') :
    ∀ y1 y2,
      (defs'.getD (j - 1) dfltIFD).get (interval_ends.getD (j - 1) 0) =
        some y1 →
      (defs'.getD j dfltIFD).get (interval_ends.getD (j - 1) 0) = some y2 →
      |y2 - y1| ≤ tolerance α := by
  rw [aux_reduce_below interval_ends fv fuel j defs hj hbfp] at hok
  have hne : j ≠ j - 1 := by omega
  have hfr1 : (apply_fixed_value interval_ends fv j defs).getD (j - 1)
      dfltIFD = defs.getD (j - 1) dfltIFD :=
    apply_fixed_value_getD_ne _ _ _ _ _ hne
  have hfr2 : defs'.getD (j - 1) dfltIFD = defs.getD (j - 1) dfltIFD := by
    rw [resolve_frame _ _ _ _ _ _ hne hok, hfr1]
  obtain ⟨yb, hgb⟩ := get_of_anchored (defs.getD (j - 1) dfltIFD)
    (interval_ends.getD (j - 1) 0) hbfp
  intro y1 y2 h1 h2
  rw [hfr2, hgb] at h1
  injection h1 with h1
  rw [h1] at hgb
  have hidx1 : j < (apply_fixed_value interval_ends fv j defs).length := by
    rw [apply_fixed_value_length]
    exact hidx
  exact resolve_consistent interval_ends fv j _ defs' y1 hj hidx1
    (by rw [hfr1]; exact hgb) hok y2 h2

/-- One `fill_fixed_point` call at an interval containing the global fixed
value bounds the discrepancy between the resolved value and that fixed
value. -/
theorem fill_call_fv {α : Type} [LinearOrderedField α]
    (interval_ends : List α) (x y : α) (fuel k : ℕ)
    (defs defs' : List (IntermediateFunctionDef α))
    (hidx : k < defs.length)
    (hin : fv_in_interval interval_ends k x = true)
    (hok : fill_fixed_point_aux interval_ends (some (x, y)) (fuel + 1) defs
      k = .ok defs') :
    ∀ y2, (defs'.getD k dfltIFD).get x = some y2 →
      |y2 - y| ≤ tolerance α := by
  cases hm : defs.getD k dfltIFD with
  | Linear g fp =>
    have happ : apply_fixed_value interval_ends (some (x, y)) k defs =
        defs.set k (.Linear g (some (x, y))) :=
      apply_fixed_value_in _ _ _ _ _ _ _ hm hin
    have hhas : ((apply_fixed_value interval_ends (some (x, y)) k
        defs).getD k dfltIFD).has_fixed_point = true := by
      rw [happ, getD_set_self _ _ _ hidx]
      rfl
    rw [aux_reduce_has interval_ends _ fuel k defs hhas, happ] at hok
    have hm1 : (defs.set k (.Linear g (some (x, y)))).getD k dfltIFD =
        .Linear g (some (x, y)) := getD_set_self _ _ _ hidx
    have hkeep := resolve_keeps _ _ _ _ _ _ _ hm1 hok
    intro y2 h2
    rw [hkeep, hm1] at h2
    simp only [IntermediateFunctionDef.get] at h2
    injection h2 with h2
    rw [← h2, show y + (x - x) * g - y = 0 from by ring, abs_zero, tolerance]
    positivity
  | Cubic poly =>
    have happ : apply_fixed_value interval_ends (some (x, y)) k defs =
        defs := by
      rw [apply_fixed_value.eq_def, hm]
    have hhas : ((apply_fixed_value interval_ends (some (x, y)) k
        defs).getD k dfltIFD).has_fixed_point = true := by
      rw [happ, hm]
      rfl
    rw [aux_reduce_has interval_ends _ fuel k defs hhas, happ] at hok
    have hkeep := resolve_keeps_cubic _ _ _ _ _ _ hm hok
    simp only [resolve_interval, hm, hin, Bool.true_and] at hok
    by_cases hc : tolerance α < |y - poly.eval x|
    · rw [decide_eq_true hc] at hok
      simp at hok
    · intro y2 h2
      rw [hkeep, hm] at h2
      simp only [IntermediateFunctionDef.get] at h2
      injection h2 with h2
      rw [← h2, abs_sub_comm]
      exact not_lt.mp hc

/-- All intervals below `j` are anchored. -/
def anchored_below {α : Type} [LinearOrderedField α]
    (defs : List (IntermediateFunctionDef α)) (j : ℕ) : Prop :=
  ∀ k, k < j → (defs.getD k dfltIFD).has_fixed_point = true

/-- Any two determined values at the boundary between intervals `k` and
`k + 1` agree within the 1e-4 tolerance. -/
def consistent_at {α : Type} [LinearOrderedField α] (interval_ends : List α)
    (defs : List (IntermediateFunctionDef α)) (k : ℕ) : Prop :=
  ∀ y1 y2,
    (defs.getD k dfltIFD).get (interval_ends.getD k 0) = some y1 →
    (defs.getD (k + 1) dfltIFD).get (interval_ends.getD k 0) = some y2 →
    |y2 - y1| ≤ tolerance α

/-- The determined value of interval `k` at the global fixed value's
altitude agrees with the fixed value within the 1e-4 tolerance. -/
def fv_consistent_at {α : Type} [LinearOrderedField α] (x y : α)
    (defs : List (IntermediateFunctionDef α)) (k : ℕ) : Prop :=
  ∀ y2, (defs.getD k dfltIFD).get x = some y2 → |y2 - y| ≤ tolerance α

/-- Invariant of the `fill_fixed_points` main loop: after processing the
indices `j, j+1, ..., j+m-1`, all of them are anchored, all processed
adjacent pairs are boundary-consistent, and all processed intervals
containing the global fixed value agree with it. -/
theorem ffp_go_inv {α : Type} [LinearOrderedField α] (interval_ends : List α)
    (fv : Option (α × α)) :
    ∀ (m j : ℕ) (defs defs' : List (IntermediateFunctionDef α)),
      ffp_go interval_ends fv (List.range' j m) defs = .ok defs' →
      j + m ≤ defs.length →
      anchored_below defs j →
      (∀ k, k + 1 < j → consistent_at interval_ends defs k) →
      (∀ x y, fv = some (x, y) → ∀ k, k < j →
        fv_in_interval interval_ends k x = true →
        fv_consistent_at x y defs k) →
      anchored_below defs' (j + m) ∧
      (∀ k, k + 1 < j + m → consistent_at interval_ends defs' k) ∧
      (∀ x y, fv = some (x, y) → ∀ k, k < j + m →
        fv_in_interval interval_ends k x = true →
        fv_consistent_at x y defs' k) := by
  intro m
  induction m with
  | zero =>
    intro j defs defs' h hlen ha hc hf
    rw [show List.range' j 0 = [] from rfl, ffp_go] at h
    injection h with h
    subst h
    exact ⟨by simpa using ha, by simpa using hc, by simpa using hf⟩
  | succ m ih =>
    intro j defs defs' h hlen ha hc hf
    rw [show List.range' j (m + 1) = j :: List.range' (j + 1) m from rfl,
      ffp_go] at h
    split at h
    · exact Except.noConfusion h
    · rename_i d1 heq
      rw [fill_fixed_point] at heq
      obtain ⟨n, hn⟩ : ∃ n, defs.length - j = n + 1 :=
        ⟨defs.length - j - 1, by omega⟩
      rw [hn] at heq
      have hlen1 : d1.length = defs.length :=
        fill_aux_length _ _ _ _ _ _ heq
      have hfr : ∀ k, k < j → d1.getD k dfltIFD = defs.getD k dfltIFD :=
        fun k hk => aux_frame _ _ _ _ _ _ heq k hk
      have hidx : j < defs.length := by omega
      have ha1 : anchored_below d1 (j + 1) := by
        intro k hk
        rcases Nat.lt_or_ge k j with hkj | hkj
        · rw [hfr k hkj]
          exact ha k hkj
        · have hkeq : k = j := by omega
          subst hkeq
          exact aux_anchored _ _ _ _ _ _ hidx heq
      have hc1 : ∀ k, k + 1 < j + 1 → consistent_at interval_ends d1 k := by
        intro k hk
        rcases Nat.lt_or_ge (k + 1) j with hkj | hkj
        · intro y1 y2 h1 h2
          rw [hfr k (by omega)] at h1
          rw [hfr (k + 1) (by omega)] at h2
          exact hc k hkj y1 y2 h1 h2
        · have hkj' : k + 1 = j := by omega
          subst hkj'
          intro y1 y2 h1 h2
          exact fill_call_consistent interval_ends fv n (k + 1) defs d1
            (by omega) hidx (ha k (by omega)) heq y1 y2 h1 h2
      have hf1 : ∀ x y, fv = some (x, y) → ∀ k, k < j + 1 →
          fv_in_interval interval_ends k x = true →
          fv_consistent_at x y d1 k := by
        intro x y hfv k hk hin
        rcases Nat.lt_or_ge k j with hkj | hkj
        · intro y2 h2
          rw [hfr k hkj] at h2
          exact hf x y hfv k hkj hin y2 h2
        · have hkeq : k = j := by omega
          subst hkeq
          rw [hfv] at heq
          exact fill_call_fv interval_ends x y n k defs d1 hidx hin heq
      have hres := ih (j + 1) d1 defs' h (by omega) ha1 hc1 hf1
      rw [show j + 1 + m = j + (m + 1) from by omega] at hres
      exact hres

/-- A determined interval's boundary value equals its final resolved
function's value there. -/
theorem get_into_eval {α : Type} [LinearOrderedField α]
    (d : IntermediateFunctionDef α) (x : α) (h : d.has_fixed_point = true) :
    d.get x = some ((d.into_function).eval x) := by
  cases d with
  | Linear g fp =>
    cases fp with
    | none =>
      exact absurd h (by simp [IntermediateFunctionDef.has_fixed_point])
    | some pt =>
      obtain ⟨x0, y0⟩ := pt
      simp only [IntermediateFunctionDef.get,
        IntermediateFunctionDef.into_function, VerticalFunction.eval,
        Option.getD_some, Option.some.injEq]
      ring
  | Cubic poly => rfl

theorem getD_map_into {α : Type} [LinearOrderedField α]
    (defs : List (IntermediateFunctionDef α)) (k : ℕ)
    (h : k < defs.length) :
    (defs.map IntermediateFunctionDef.into_function).getD k dfltVF =
      (defs.getD k dfltIFD).into_function := by
  rw [List.getD_eq_getElem _ _ (by simpa using h), List.getElem_map,
    List.getD_eq_getElem _ _ h]

/-- C4.  Whenever two independently determined values for the same boundary
altitude (a propagated neighbour value, a spline/cubic value, or the
explicit fixed value) differ by more than the absolute tolerance 1e-4,
`build()` fails: contrapositively, every profile returned as `Ok` is
boundary-consistent within 1e-4 at every internal boundary and agrees with
the global fixed value within 1e-4 on every interval containing it; and
`build()` is atomic - it returns either a full profile or an error that is
`NoFixedPoint` or a `FixedPointConflict{index1, index2, point1, point2,
gradient}` identifying the two intervals and points. -/
theorem c4_conflict_detection {α : Type} [LinearOrderedField α] :
    (∀ (b : VerticalProfileBuilder α) (p : VerticalProfile α),
      b.build = .ok p →
      (∀ i, i + 1 < p.interval_functions.length →
        |(p.interval_functions.getD (i + 1) dfltVF).eval
            (p.altitude_interval_ends.getD i 0) -
          (p.interval_functions.getD i dfltVF).eval
            (p.altitude_interval_ends.getD i 0)| ≤ tolerance α) ∧
      (∀ x y i, b.fixed_value = some (x, y) →
        i < p.interval_functions.length →
        fv_in_interval p.altitude_interval_ends i x = true →
        |(p.interval_functions.getD i dfltVF).eval x - y| ≤ tolerance α)) ∧
    (∀ b : VerticalProfileBuilder α,
      (∃ p, b.build = .ok p) ∨
      ∃ e, b.build = .error e ∧
        (e = .NoFixedPoint ∨
          ∃ i1 i2 p1 p2 g, e = .FixedPointConflict i1 i2 p1 p2 g)) := by
  constructor
  · intro b p hok
    simp only [VerticalProfileBuilder.build] at hok
    split at hok
    · exact Except.noConfusion hok
    · rename_i defs heq
      injection hok with hok
      rw [fill_fixed_points, List.range_eq_range'] at heq
      have hlen2 : defs.length =
          (generate_intermediate_function_defs b.interval_ends
            b.function_defs).2.length :=
        ffp_go_length _ _ _ _ _ heq
      obtain ⟨HA, HC, HF⟩ := ffp_go_inv
        (generate_intermediate_function_defs b.interval_ends
          b.function_defs).1 b.fixed_value
        (generate_intermediate_function_defs b.interval_ends
          b.function_defs).2.length 0 _ defs heq (by omega)
        (fun k hk => absurd hk (Nat.not_lt_zero k))
        (fun k hk => absurd hk (Nat.not_lt_zero (k + 1)))
        (fun x y _ k hk _ => absurd hk (Nat.not_lt_zero k))
      rw [Nat.zero_add] at HA HC HF
      constructor
      · intro i hi
        rw [← hok] at hi ⊢
        have hi' : i + 1 < defs.length := by
          simpa using hi
        have hil : i < defs.length := by omega
        have hil2 : i + 1 < defs.length := hi'
        show |((defs.map IntermediateFunctionDef.into_function).getD (i + 1)
            dfltVF).eval _ - _| ≤ _
        rw [getD_map_into defs (i + 1) hil2, getD_map_into defs i hil]
        have ha_i := HA i (by omega)
        have ha_i1 := HA (i + 1) (by omega)
        exact HC i (by omega) _ _
          (get_into_eval _ _ ha_i) (get_into_eval _ _ ha_i1)
      · intro x y i hfv hi hin
        rw [← hok] at hi hin ⊢
        have hil : i < defs.length := by simpa using hi
        show |((defs.map IntermediateFunctionDef.into_function).getD i
            dfltVF).eval x - y| ≤ _
        rw [getD_map_into defs i hil]
        exact HF x y hfv i (by omega) hin _ (get_into_eval _ _ (HA i (by omega)))
  · intro b
    cases hb : b.build with
    | ok p => exact Or.inl ⟨p, rfl⟩
    | error e =>
      refine Or.inr ⟨e, rfl, ?_⟩
      cases e with
      | NoFixedPoint => exact Or.inl rfl
      | FixedPointConflict i1 i2 p1 p2 g =>
        exact Or.inr ⟨i1, i2, p1, p2, g, rfl⟩

/-- Witness for C4 at the us_76 temperature build. -/
theorem c4_conflict_detection_witness :
    |(us76_temp_profile.interval_functions.getD 1 dfltVF).eval
        (us76_temp_profile.altitude_interval_ends.getD 0 0) -
      (us76_temp_profile.interval_functions.getD 0 dfltVF).eval
        (us76_temp_profile.altitude_interval_ends.getD 0 0)| ≤ tolerance ℝ ∧
    |(us76_temp_profile.interval_functions.getD 0 dfltVF).eval 0 - 288| ≤
      tolerance ℝ := by
  obtain ⟨H1, H2⟩ := (@c4_conflict_detection ℝ _).1 us76_temp_builder
    us76_temp_profile us76_temp_build_ok
  exact ⟨H1 0 (by show 0 + 1 < 8; norm_num),
    H2 0 288 0 rfl (by show (0 : ℕ) < 8; norm_num)
      (fv_in_interval_true_of us76_ends 0 0 (Or.inl rfl)
        (Or.inr (by show (0 : ℝ) ≤ 11e3; norm_num)))⟩
